import Mathlib

/-!
Shallow embedding of the transaction-grid core of the open_grid_multicurrency
repository: the row state model, validation engine, save reconciler, undo/redo
log and clipboard transcoder of src/gui/widgets/transaction_grid.py, the
cascading dropdown delegates of src/gui/widgets/custom_delegates.py, and the
persistence layer of src/models/transaction.py over
src/data/repositories/database.py and
src/data/repositories/transaction_repository.py.

Machine-level conventions: Python strings are Lean String (reasoned about via
their character lists), Python float is modelled as Rat, Python None-able ints
as Option Nat, Python dicts as insertion-ordered association lists, and the Qt
grid as an explicit list of rows of (text, user-role payload) cells.
Presentation-only effects (colors, fonts, tooltips, repaints, deferred QTimer
re-application of already-decided styling) have no data-model footprint and
are not part of the state.
-/

namespace OGM

/-- Python whitespace characters, the set stripped by str.strip(). -/
def isPySpace (c : Char) : Bool :=
  c = ' ' || c = '\t' || c = '\n' || c = '\r' || c = '\x0b' || c = '\x0c'

/-- Python truthiness of a nullable integer key: None and 0 are falsy. -/
def pyTruthyOpt : Option Nat → Bool
  | none => false
  | some n => n != 0

/-- Python truthiness of a string: only the empty string is falsy. -/
def pyTruthyStr (s : String) : Bool := s != ""

/-- The test `not t.name or not t.name.strip()`: empty or whitespace-only. -/
def pyStrBlank (s : String) : Bool := s.data.all isPySpace

/-- Python str.startswith. -/
def pyStartsWith (p s : String) : Bool := p.data.isPrefixOf s.data

/-- Python slicing s[n:]. -/
def pyDrop (s : String) (n : Nat) : String := String.mk (s.data.drop n)

/-- Python str.split(sep) on character lists: splits at every separator
occurrence without merging; the empty string yields [''] . -/
def pySplitChar (sep : Char) : List Char → List (List Char)
  | [] => [[]]
  | c :: cs =>
    if c = sep then [] :: pySplitChar sep cs
    else
      match pySplitChar sep cs with
      | [] => [[c]]
      | h :: t => (c :: h) :: t

/-- Truthiness of line.strip(): some character is not whitespace. -/
def pyStripTruthy (l : List Char) : Bool := l.any (fun c => !(isPySpace c))

/-- Helper for Python substring containment. -/
def containsSub (p : List Char) : List Char → Bool
  | [] => p.isPrefixOf []
  | c :: cs => p.isPrefixOf (c :: cs) || containsSub p cs

/-- Python `sub in s` on strings. -/
def pyInStr (sub s : String) : Bool := containsSub sub.data s.data

/-- Digit-list value, defined when all characters are decimal digits. -/
def digitsToNat? (l : List Char) : Option Nat :=
  if l.all Char.isDigit then some (l.foldl (fun a c => 10 * a + (c.toNat - 48)) 0) else none

/-- Unsigned part of the Python float() literal grammar restricted to plain
decimal literals ("12", "12.5", "12.", ".5"); exponents, inf/nan, underscores
and surrounding whitespace are outside the states this model builds. -/
def pyFloatCore (l : List Char) : Option Rat :=
  match pySplitChar '.' l with
  | [d] => if d.isEmpty then none else (digitsToNat? d).map (fun n => (n : Rat))
  | [i, f] =>
    if i.isEmpty && f.isEmpty then none
    else
      match digitsToNat? i, digitsToNat? f with
      | some a, some b => some ((a : Rat) + (b : Rat) / ((10 : Rat) ^ f.length))
      | _, _ => none
  | _ => none

/-- Models Python float(text): some value on a decimal literal, none when the
text does not parse (float() raises ValueError there). -/
def pyFloat? (s : String) : Option Rat :=
  match s.data with
  | [] => none
  | '-' :: r => (pyFloatCore r).map (fun v => -v)
  | '+' :: r => pyFloatCore r
  | l => pyFloatCore l

/-- Models Python str() of a numeric value; no theorem below relies on the
exact digit string produced. -/
def pyFloatRepr (v : Rat) : String := toString v

/-- TransactionRecord: src/models/transaction.py Transaction, including the
display-name attributes dynamically attached by
TransactionRepository.get_transactions_with_details. -/
structure Transaction where
  id : Option Nat
  name : String
  description : String
  account_id : Option Nat
  transaction_type : String
  category_id : Option Nat
  sub_category_id : Option Nat
  date : String
  value : Rat
  account_name : Option String
  category_name : Option String
  sub_category_name : Option String
deriving DecidableEq, Inhabited, Repr

/-- The transactions table of the SQLite store, with the AUTOINCREMENT
counter; writeCount instruments how many INSERT/UPDATE statements have been
executed against the table (reads and deletes are not counted). -/
structure Store where
  rows : List Transaction
  nextId : Nat
  writeCount : Nat
deriving DecidableEq, Inhabited, Repr

/-- to_dict drops the id and the dynamically attached display names; a stored
row therefore carries none of them. -/
def Transaction.stripDetails (t : Transaction) : Transaction :=
  { t with account_name := none, category_name := none, sub_category_name := none }

/-- Transaction.save: INSERT assigning lastrowid when id is None, otherwise a
plain SQL UPDATE ... WHERE id = i, which rewrites the row with that id and is
a no-op on the table when no such row exists. -/
def Transaction.save (t : Transaction) (db : Store) : Transaction × Store :=
  match t.id with
  | none =>
    let t2 := { t with id := some db.nextId }
    (t2, { rows := db.rows ++ [t2.stripDetails], nextId := db.nextId + 1,
           writeCount := db.writeCount + 1 })
  | some i =>
    (t, { db with
          rows := db.rows.map (fun r =>
            if r.id = some i then Transaction.stripDetails { t with id := some i } else r),
          writeCount := db.writeCount + 1 })

/-- Transaction.delete: DELETE ... WHERE id = i; note the Python method does
NOT reset self.id, the caller's object keeps its stale identity. -/
def Transaction.delete (t : Transaction) (db : Store) : Store :=
  match t.id with
  | none => db
  | some _ => { db with rows := db.rows.filter (fun r => decide (r.id ≠ t.id)) }

/-- Lookup Provider: Account.get_by_id / Category.get_by_id /
SubCategory.get_by_id name resolution and the repository's LEFT JOINs. -/
structure Lookup where
  accountName : Nat → Option String
  categoryName : Nat → Option String
  subCategoryName : Nat → Option String

/-- Insertion step for the ORDER BY transaction_date DESC of the repository. -/
def insertDateDesc (t : Transaction) : List Transaction → List Transaction
  | [] => [t]
  | u :: us => if t.date ≤ u.date then u :: insertDateDesc t us else t :: u :: us

def sortByDateDesc : List Transaction → List Transaction
  | [] => []
  | t :: ts => insertDateDesc t (sortByDateDesc ts)

/-- The display-name enrichment performed per row by
get_transactions_with_details: account/category names may be NULL from the
LEFT JOIN, the subcategory name is coalesced to "". -/
def enrich (lk : Lookup) (t : Transaction) : Transaction :=
  { t with
    account_name := t.account_id.bind lk.accountName,
    category_name := t.category_id.bind lk.categoryName,
    sub_category_name := some ((t.sub_category_id.bind lk.subCategoryName).getD "") }

/-- TransactionRepository.get_transactions_with_details. -/
def get_transactions_with_details (lk : Lookup) (db : Store) : List Transaction :=
  (sortByDateDesc db.rows).map (enrich lk)

/-- The Qt.UserRole payload a grid cell can carry. -/
inductive CellData where
  | nodata
  | marker
  | txn (t : Transaction)
  | ref (n : Nat)
deriving DecidableEq, Inhabited, Repr

/-- setData(UserRole, x) for a nullable id x. -/
def CellData.ofRef : Option Nat → CellData
  | none => .nodata
  | some n => .ref n

/-- item.data(UserRole) read back as a nullable id (None when unset; the
account/category/subcategory cells only ever hold ids or None). -/
def CellData.asRef : CellData → Option Nat
  | .ref n => some n
  | _ => none

structure Cell where
  text : String
  data : CellData
deriving DecidableEq, Inhabited, Repr

/-- One grid row: the nine columns COL_ID .. COL_DATE. -/
structure Row where
  idCell : Cell
  nameCell : Cell
  descCell : Cell
  accountCell : Cell
  typeCell : Cell
  valueCell : Cell
  categoryCell : Cell
  subCategoryCell : Cell
  dateCell : Cell
deriving DecidableEq, Inhabited, Repr

/-- self.item(row, col) by column index (0 = ID .. 8 = Date). -/
def Row.getCol (r : Row) (col : Nat) : Cell :=
  match col with
  | 0 => r.idCell
  | 1 => r.nameCell
  | 2 => r.descCell
  | 3 => r.accountCell
  | 4 => r.typeCell
  | 5 => r.valueCell
  | 6 => r.categoryCell
  | 7 => r.subCategoryCell
  | 8 => r.dateCell
  | _ => default

/-- item.setText at a column: only the display text changes, any UserRole
payload is untouched. -/
def Row.setColText (r : Row) (col : Nat) (s : String) : Row :=
  match col with
  | 0 => { r with idCell := { r.idCell with text := s } }
  | 1 => { r with nameCell := { r.nameCell with text := s } }
  | 2 => { r with descCell := { r.descCell with text := s } }
  | 3 => { r with accountCell := { r.accountCell with text := s } }
  | 4 => { r with typeCell := { r.typeCell with text := s } }
  | 5 => { r with valueCell := { r.valueCell with text := s } }
  | 6 => { r with categoryCell := { r.categoryCell with text := s } }
  | 7 => { r with subCategoryCell := { r.subCategoryCell with text := s } }
  | 8 => { r with dateCell := { r.dateCell with text := s } }
  | _ => r

/-- TransactionGrid state: the rows plus the bookkeeping lists of __init__. -/
structure GridState where
  rows : List Row
  changes : List (Nat × Transaction)
  new_rows : List Nat
  modified_rows : List Nat
  error_rows : List Nat
  error_fields : List (Nat × Nat)
  undo_stack : List (String × Transaction)
  redo_stack : List (String × Transaction)
deriving DecidableEq, Inhabited, Repr

def emptyGrid : GridState :=
  { rows := [], changes := [], new_rows := [], modified_rows := [], error_rows := [],
    error_fields := [], undo_stack := [], redo_stack := [] }

def rowAt (g : GridState) (row : Nat) : Row := (g.rows.get? row).getD default

/-- The is_add_row test: the name cell's UserRole equals "add_row_marker";
false for out-of-range rows, where self.item returns None. -/
def isAddRowAt (g : GridState) (row : Nat) : Bool :=
  match g.rows.get? row with
  | some r => r.nameCell.data == CellData.marker
  | none => false

/-- Replace one row in place (no-op when out of range, where the items would
be None). -/
def modifyRow (g : GridState) (row : Nat) (f : Row → Row) : GridState :=
  { g with rows := g.rows.set row (f (rowAt g row)) }

/-- Python dict assignment d[k] = v on an insertion-ordered association
list: overwrite in place, else append. -/
def dictSet (m : List (Nat × Transaction)) (k : Nat) (v : Transaction) :
    List (Nat × Transaction) :=
  match m with
  | [] => [(k, v)]
  | (k2, v2) :: rest => if k2 = k then (k, v) :: rest else (k2, v2) :: dictSet rest k v

/-- The minimal-default transaction built at the top of add_empty_row. -/
def emptyTxn : Transaction :=
  { id := none, name := "", description := "", account_id := none,
    transaction_type := "", category_id := none, sub_category_id := none,
    date := "", value := 0,
    account_name := none, category_name := none, sub_category_name := none }

/-- The Add-Sentinel row appended by add_empty_row: empty ID cell carrying the
fresh transaction, "+" name cell carrying the add_row_marker, empty items in
the remaining columns. -/
def emptyRow : Row :=
  { idCell := { text := "", data := .txn emptyTxn },
    nameCell := { text := "+", data := .marker },
    descCell := { text := "", data := .nodata },
    accountCell := { text := "", data := .nodata },
    typeCell := { text := "", data := .nodata },
    valueCell := { text := "", data := .nodata },
    categoryCell := { text := "", data := .nodata },
    subCategoryCell := { text := "", data := .nodata },
    dateCell := { text := "", data := .nodata } }

def add_empty_row (g : GridState) : GridState := { g with rows := g.rows ++ [emptyRow] }

/-- Body of get_transaction_from_row for an in-range row: start from the
transaction object stored on the ID cell (every row-creation path stores one;
the fallback mirrors the `else Transaction()` arm) and overwrite its fields
from the current cell contents; a Value text that float() rejects silently
becomes 0.0. -/
def extract_row (g : GridState) (row : Nat) : Transaction :=
  let r := rowAt g row
  let base : Transaction :=
    match r.idCell.data with
    | .txn t => t
    | _ => emptyTxn
  { base with
    name := r.nameCell.text,
    description := r.descCell.text,
    account_id := r.accountCell.data.asRef,
    transaction_type := r.typeCell.text,
    value := (pyFloat? r.valueCell.text).getD 0,
    category_id := r.categoryCell.data.asRef,
    sub_category_id := r.subCategoryCell.data.asRef,
    date := r.dateCell.text }

/-- get_transaction_from_row: None for an out-of-range row index. -/
def get_transaction_from_row (g : GridState) (row : Nat) : Option Transaction :=
  if row < g.rows.length then some (extract_row g row) else none

/-- validate_transaction: required-field checks in source order, first failing
rule wins; category and subcategory are never examined. -/
def validate_transaction (t : Transaction) : Bool × String :=
  if pyStrBlank t.name then (false, "Name is required")
  else if !pyTruthyOpt t.account_id then (false, "Account is required")
  else if !pyTruthyStr t.transaction_type then (false, "Type is required")
  else if !pyTruthyStr t.date then (false, "Date is required")
  else (true, "")

/-- highlight_new_row: register the row among new rows if absent and prepend
the "NEW: " decoration to the name text unless already decorated or the
sentinel "+". -/
def highlight_new_row (g : GridState) (row : Nat) : GridState :=
  let g1 := if row ∈ g.new_rows then g else { g with new_rows := g.new_rows ++ [row] }
  if row < g1.rows.length then
    let nt := (rowAt g1 row).nameCell.text
    if !pyStartsWith "NEW: " nt && nt != "+" then
      modifyRow g1 row (fun r => { r with nameCell := { r.nameCell with text := "NEW: " ++ nt } })
    else g1
  else g1

/-- highlight_modified_row: register among modified rows, deregister from new
rows, and prepend the "MODIFIED: " decoration unless already decorated. -/
def highlight_modified_row (g : GridState) (row : Nat) : GridState :=
  let g1 := if row ∈ g.modified_rows then g else { g with modified_rows := g.modified_rows ++ [row] }
  let g2 := if row ∈ g1.new_rows then { g1 with new_rows := g1.new_rows.erase row } else g1
  if row < g2.rows.length then
    let nt := (rowAt g2 row).nameCell.text
    if !pyStartsWith "MODIFIED: " nt && !pyStartsWith "NEW: " nt then
      modifyRow g2 row (fun r => { r with nameCell := { r.nameCell with text := "MODIFIED: " ++ nt } })
    else g2
  else g2

/-- The (row, col) error coordinates recorded for a message, by substring
matching as in the source. -/
def errorFieldsFor (row : Nat) (msg : String) : List (Nat × Nat) :=
  (if pyInStr "Name is required" msg then [(row, 1)] else []) ++
  (if pyInStr "Account is required" msg then [(row, 3)] else []) ++
  (if pyInStr "Type is required" msg then [(row, 4)] else []) ++
  (if pyInStr "Date is required" msg then [(row, 8)] else [])

/-- highlight_error_row: register among error rows, deregister from new and
modified rows, and (for a truthy message) replace this row's error-field
coordinates; the direct cell styling is presentation only. -/
def highlight_error_row (g : GridState) (row : Nat) (msg : String) : GridState :=
  let g1 := if row ∈ g.error_rows then g else { g with error_rows := g.error_rows ++ [row] }
  let g2 := if row ∈ g1.new_rows then { g1 with new_rows := g1.new_rows.erase row } else g1
  let g3 := if row ∈ g2.modified_rows then { g2 with modified_rows := g2.modified_rows.erase row } else g2
  if pyTruthyStr msg then
    { g3 with error_fields :=
        (g3.error_fields.filter (fun p => decide (p.1 ≠ row))) ++ errorFieldsFor row msg }
  else g3

/-- populate_row: the row built for a loaded (persisted) transaction; the
account/category/subcategory texts come from the repository's display-name
attributes and the ids ride on UserRole. -/
def populate_row (t : Transaction) : Row :=
  { idCell := { text := match t.id with | some n => toString n | none => "None",
                data := .txn t },
    nameCell := { text := t.name, data := .nodata },
    descCell := { text := t.description, data := .nodata },
    accountCell := { text := t.account_name.getD "", data := .ofRef t.account_id },
    typeCell := { text := t.transaction_type, data := .nodata },
    valueCell := { text := pyFloatRepr t.value, data := .nodata },
    categoryCell := { text := t.category_name.getD "", data := .ofRef t.category_id },
    subCategoryCell := { text := t.sub_category_name.getD "", data := .ofRef t.sub_category_id },
    dateCell := { text := t.date, data := .nodata } }

/-- Display text `name or ""` resolved through the Lookup Provider for a
truthy id, as in the unsaved-row re-add block of load_transactions. -/
def lookupNameText (f : Nat → Option String) (o : Option Nat) : String :=
  if pyTruthyOpt o then (o.bind f).getD "" else ""

/-- The row rebuilt for a preserved unsaved transaction in load_transactions;
value shows "" for 0.0 via `str(transaction.value or "")`. -/
def unsavedRow (lk : Lookup) (t : Transaction) : Row :=
  { idCell := { text := "", data := .txn t },
    nameCell := { text := t.name, data := .nodata },
    descCell := { text := t.description, data := .nodata },
    accountCell := { text := lookupNameText lk.accountName t.account_id,
                     data := .ofRef t.account_id },
    typeCell := { text := t.transaction_type, data := .nodata },
    valueCell := { text := if t.value = 0 then "" else pyFloatRepr t.value, data := .nodata },
    categoryCell := { text := lookupNameText lk.categoryName t.category_id,
                      data := .ofRef t.category_id },
    subCategoryCell := { text := lookupNameText lk.subCategoryName t.sub_category_id,
                         data := .ofRef t.sub_category_id },
    dateCell := { text := t.date, data := .nodata } }

/-- The unsaved-new transactions load_transactions preserves: rows registered
as new whose extracted record has a truthy name other than "+" and which are
not the Add-Sentinel. -/
def collectUnsaved (g : GridState) : List Transaction :=
  g.new_rows.filterMap (fun row =>
    if row < g.rows.length then
      let t := extract_row g row
      if !(isAddRowAt g row) && t.name != "" && t.name != "+" then some t else none
    else none)

/-- One iteration of the unsaved re-add loop of load_transactions: append the
rebuilt row, register its index as new, then highlight it. -/
def appendUnsaved (lk : Lookup) (g : GridState) (t : Transaction) : GridState :=
  let row := g.rows.length
  let g1 := { g with rows := g.rows ++ [unsavedRow lk t] }
  let g2 := { g1 with new_rows := g1.new_rows ++ [row] }
  highlight_new_row g2 row

/-- load_transactions: preserve qualifying unsaved rows, clear every
bookkeeping list, repopulate from the given records, re-add the preserved
unsaved rows, then append one fresh Add-Sentinel row. The undo/redo stacks
are not cleared. -/
def load_transactions (lk : Lookup) (g : GridState) (ts : List Transaction) : GridState :=
  let unsaved := collectUnsaved g
  let base : GridState :=
    { rows := ts.map populate_row, changes := [], new_rows := [], modified_rows := [],
      error_rows := [], error_fields := [],
      undo_stack := g.undo_stack, redo_stack := g.redo_stack }
  add_empty_row (unsaved.foldl (appendUnsaved lk) base)

/-- Result of save_all_changes: the grid, the store, the returned boolean and
the validation_failed payload (empty on success). -/
structure SaveResult where
  grid : GridState
  db : Store
  ok : Bool
  errors : List (Nat × String)
deriving DecidableEq, Inhabited, Repr

/-- The row-search loop of the pending-changes phase: first row whose ID cell
carries a (truthy) transaction object with the matching id. -/
def findRowWithId (g : GridState) (i : Option Nat) : Option Nat :=
  g.rows.findIdx? (fun r =>
    match r.idCell.data with
    | .txn u => u.id == i
    | _ => false)

/-- One pending (previously modified) record of the changes dict: persist on
valid, otherwise tag the owning row and collect the error; a record whose row
is no longer found is silently dropped. -/
def processChange (acc : GridState × Store × List (Nat × String)) (t : Transaction) :
    GridState × Store × List (Nat × String) :=
  let g := acc.1
  let db := acc.2.1
  let errs := acc.2.2
  let v := validate_transaction t
  if v.1 then (g, (t.save db).2, errs)
  else
    match findRowWithId g t.id with
    | some row => (highlight_error_row g row v.2, db, errs ++ [(row, v.2)])
    | none => (g, db, errs)

/-- Mutable state of the new-rows save loop. -/
structure LoopState where
  g : GridState
  db : Store
  saved : List Nat
  errs : List (Nat × String)
deriving DecidableEq, Inhabited, Repr

/-- The "NEW: " decoration strip of the new-rows save loop: the extracted
record loses the prefix and the name cell is rewritten accordingly. -/
def stripNewDecoration (st : LoopState) (row : Nat) : Transaction × GridState :=
  let t0 := extract_row st.g row
  if t0.name != "" && pyStartsWith "NEW: " t0.name then
    let t1 := { t0 with name := pyDrop t0.name 5 }
    (t1, modifyRow st.g row (fun r => { r with nameCell := { r.nameCell with text := t1.name } }))
  else (t0, st.g)

/-- Body of one iteration of the `for row in self.new_rows` loop: skip
out-of-range and Add-Sentinel rows, strip the "NEW: " decoration from the
extracted record and the name cell, then persist or tag Error. -/
def saveNewRowStep (st : LoopState) (row : Nat) : LoopState :=
  if row < st.g.rows.length then
    if isAddRowAt st.g row then st
    else
      let ts := stripNewDecoration st row
      let v := validate_transaction ts.1
      if v.1 then
        { st with g := ts.2, db := (ts.1.save st.db).2, saved := st.saved ++ [row] }
      else
        { st with g := highlight_error_row ts.2 row v.2, errs := st.errs ++ [(row, v.2)] }
  else st

/-- Python's `for row in self.new_rows:` iterates the live list by an internal
index; highlight_error_row removes the failing row from that same list, so
the element after a failure is skipped. The fuel argument only bounds the
iteration count (the list never grows during the loop). -/
def saveNewRowsLoop (fuel idx : Nat) (st : LoopState) : LoopState :=
  match fuel with
  | 0 => st
  | fuel + 1 =>
    match st.g.new_rows.get? idx with
    | none => st
    | some row => saveNewRowsLoop fuel (idx + 1) (saveNewRowStep st row)

/-- The re-application pass over the collected errors on the failure path. -/
def reapplyErrors (g : GridState) (errs : List (Nat × String)) : GridState :=
  errs.foldl (fun g2 p => if p.1 < g2.rows.length then highlight_error_row g2 p.1 p.2 else g2) g

/-- Tail of save_all_changes after both loops: drop saved rows from new_rows,
clear the changes dict unconditionally; on any validation error re-highlight
and report failure with the collected (row, message) list, otherwise clear
all tags and reload from the store. -/
def save_all_post (lk : Lookup) (st : LoopState) : SaveResult :=
  let g2 := { st.g with
              new_rows := st.g.new_rows.filter (fun r => decide (r ∉ st.saved)),
              changes := [] }
  if st.errs = [] then
    let g3 := { g2 with error_rows := [], error_fields := [], modified_rows := [] }
    { grid := load_transactions lk g3 (get_transactions_with_details lk st.db),
      db := st.db, ok := true, errors := [] }
  else
    { grid := reapplyErrors g2 st.errs, db := st.db, ok := false, errors := st.errs }

/-- save_all_changes: validate/persist the pending-changes dict, then the new
rows, then the post-loop bookkeeping of save_all_post. -/
def save_all_changes (lk : Lookup) (g : GridState) (db : Store) : SaveResult :=
  let acc := (g.changes.map Prod.snd).foldl processChange (g, db, [])
  save_all_post lk
    (saveNewRowsLoop acc.1.new_rows.length 0
      { g := acc.1, db := acc.2.1, saved := [], errs := acc.2.2 })

/-- on_item_changed, invoked after the item at (row, col) already holds its
new text: demote the Add-Sentinel to a registered new row on a real entry
(appending a fresh sentinel if none remains), re-highlight an existing new
row, or record a persisted row's record in the changes dict and tag it
modified. -/
def on_item_changed (g : GridState) (row col : Nat) : GridState :=
  let t? := get_transaction_from_row g row
  let isAdd := isAddRowAt g row
  let itemText := ((rowAt g row).getCol col).text
  if isAdd && pyStripTruthy itemText.data && itemText != "+" then
    let g1 := modifyRow g row (fun r => { r with nameCell := { r.nameCell with data := .nodata } })
    let g2 := if col = 1 ∧ itemText = "+"
              then modifyRow g1 row (fun r => r.setColText col "") else g1
    let g3 := if row ∈ g2.new_rows then g2 else { g2 with new_rows := g2.new_rows ++ [row] }
    let g4 := highlight_new_row g3 row
    if g4.rows.any (fun r => r.nameCell.data == CellData.marker) then g4 else add_empty_row g4
  else if row ∈ g.new_rows ∧ isAdd = false then
    highlight_new_row g row
  else
    match t? with
    | some t =>
      if pyTruthyOpt t.id then
        let g1 := { g with changes := dictSet g.changes (t.id.getD 0) t }
        let g2 := if row ∉ g1.modified_rows ∧ row ∉ g1.error_rows
                  then { g1 with modified_rows := g1.modified_rows ++ [row] } else g1
        highlight_modified_row g2 row
      else g
    | none => g

/-- undo: pop the undo stack, push onto redo, and for a delete action
re-persist the snapshot then reload. The snapshot still carries the identity
it had before deletion (Transaction.delete never clears it), and the pushed
redo entry aliases the object save returns. -/
def undo (lk : Lookup) (g : GridState) (db : Store) : GridState × Store :=
  match g.undo_stack.getLast? with
  | none => (g, db)
  | some action =>
    let g1 := { g with undo_stack := g.undo_stack.dropLast }
    if action.1 = "delete" then
      let r := action.2.save db
      let g2 := { g1 with redo_stack := g1.redo_stack ++ [(action.1, r.1)] }
      (load_transactions lk g2 (get_transactions_with_details lk r.2), r.2)
    else ({ g1 with redo_stack := g1.redo_stack ++ [action] }, db)

/-- redo: pop the redo stack, push back onto undo, and for a delete action
delete the record again then reload. -/
def redo (lk : Lookup) (g : GridState) (db : Store) : GridState × Store :=
  match g.redo_stack.getLast? with
  | none => (g, db)
  | some action =>
    let g1 := { g with redo_stack := g.redo_stack.dropLast,
                       undo_stack := g.undo_stack ++ [action] }
    if action.1 = "delete" then
      let db2 := action.2.delete db
      (load_transactions lk g1 (get_transactions_with_details lk db2), db2)
    else (g1, db)

/-- Descending insertion sort, for `sorted(rows, reverse=True)`. -/
def insertDescNat (n : Nat) : List Nat → List Nat
  | [] => [n]
  | m :: ms => if n ≥ m then n :: m :: ms else m :: insertDescNat n ms

def sortDescNat : List Nat → List Nat
  | [] => []
  | n :: ns => insertDescNat n (sortDescNat ns)

/-- Ascending insertion sort, for `sorted(set(rows))`. -/
def insertAscNat (n : Nat) : List Nat → List Nat
  | [] => [n]
  | m :: ms => if n ≤ m then n :: m :: ms else m :: insertAscNat n ms

def sortAscNat : List Nat → List Nat
  | [] => []
  | n :: ns => insertAscNat n (sortAscNat ns)

/-- One row of the deletion loop: a new row is only deregistered, a persisted
row's snapshot goes onto the undo stack and its record is deleted from the
store; either way the grid row is removed. The non-transaction ID-cell case
cannot arise from the row-creation paths of this model. -/
def deleteRowStep (acc : GridState × Store) (row : Nat) : GridState × Store :=
  let g := acc.1
  let db := acc.2
  match g.rows.get? row with
  | none => (g, db)
  | some r =>
    match r.idCell.data with
    | .txn t =>
      if row ∈ g.new_rows then
        ({ g with new_rows := g.new_rows.erase row, rows := g.rows.eraseIdx row }, db)
      else
        ({ g with undo_stack := g.undo_stack ++ [("delete", t)],
                  rows := g.rows.eraseIdx row },
         if pyTruthyOpt t.id then t.delete db else db)
    | _ =>
      if row ∈ g.new_rows then
        ({ g with new_rows := g.new_rows.erase row, rows := g.rows.eraseIdx row }, db)
      else (g, db)

/-- delete_selected_transaction over a list of selected row indices, with the
confirmation dialog answered Yes: delete in descending row order, then ensure
a sentinel row exists whenever the grid is empty or no new rows remain. -/
def delete_selected_transaction (g : GridState) (db : Store) (sel : List Nat) :
    GridState × Store :=
  let acc := (sortDescNat sel).foldl deleteRowStep (g, db)
  if acc.1.rows.length = 0 ∨ acc.1.new_rows = [] then (add_empty_row acc.1, acc.2)
  else acc

/-- A character forcing csv QUOTE_MINIMAL quoting with delimiter tab,
quotechar double-quote and lineterminator newline: the delimiter, the
quotechar, or a character of the lineterminator string. With the
single-character lineterminator "\n", a carriage return does NOT trigger
quoting and is emitted raw. -/
def needsQuote (c : Char) : Bool := c = '\t' || c = '\n' || c = '"'

/-- csv quotechar doubling inside a quoted field. -/
def doubleQuotes : List Char → List Char
  | [] => []
  | c :: cs => if c = '"' then '"' :: '"' :: doubleQuotes cs else c :: doubleQuotes cs

/-- One field as csv.writer(delimiter tab, QUOTE_MINIMAL) emits it. -/
def csvField (f : List Char) : List Char :=
  if f.any needsQuote then '"' :: (doubleQuotes f ++ ['"']) else f

/-- The eight visible (non-ID) cell texts of a row in fixed column order. -/
def rowVisTexts (r : Row) : List String :=
  [r.nameCell.text, r.descCell.text, r.accountCell.text, r.typeCell.text,
   r.valueCell.text, r.categoryCell.text, r.subCategoryCell.text, r.dateCell.text]

/-- The visible texts at a row index; an out-of-range row yields the empty
texts self.item would (None items). -/
def rowFieldTexts (g : GridState) (row : Nat) : List String :=
  match g.rows.get? row with
  | some r => rowVisTexts r
  | none => ["", "", "", "", "", "", "", ""]

/-- Join character lists with a single separator character between them, as
csv.writer places the tab delimiter. -/
def joinSep (sep : Char) : List (List Char) → List Char
  | [] => []
  | [x] => x
  | x :: y :: rest => x ++ sep :: joinSep sep (y :: rest)

/-- One csv line: tab-joined encoded fields plus the newline terminator. -/
def csvLine (fields : List String) : List Char :=
  joinSep '\t' (fields.map (fun s => csvField s.data)) ++ ['\n']

/-- copy_selection_to_clipboard: one csv line per selected row in ascending
deduplicated row order. An empty selection returns without touching the
clipboard, modelled as the empty text. -/
def copy_selection_to_clipboard (g : GridState) (sel : List Nat) : String :=
  if sel.isEmpty then ""
  else String.mk (((sortAscNat sel.dedup).map (fun row => csvLine (rowFieldTexts g row))).flatten)

/-- Clipboard parsing of paste_from_clipboard: split on newlines, keep lines
whose strip() is truthy, split each on tabs. -/
def parseClipboard (text : String) : List (List String) :=
  ((pySplitChar '\n' text.data).filter pyStripTruthy).map
    (fun line => (pySplitChar '\t' line).map String.mk)

/-- The inner cell-writing loop of the paste: cell j goes to column j+1 (the
hidden ID column is skipped), columns beyond the grid are ignored. -/
def writeRowCells : Row → Nat → List String → Row
  | r, _, [] => r
  | r, j, s :: rest => writeRowCells (if j + 1 < 9 then r.setColText (j + 1) s else r) (j + 1) rest

/-- One line of the write loop of the paste: append a fresh sentinel row when
the target is at or past the current last row, then write the cells when the
target row exists (its items are None otherwise). -/
def pasteWriteStep (g : GridState) (idx : Nat) (cells : List String) : GridState :=
  let g1 := if g.rows.length ≤ idx + 1 then add_empty_row g else g
  if idx < g1.rows.length then
    { g1 with rows := g1.rows.set idx (writeRowCells (rowAt g1 idx) 0 cells) }
  else g1

/-- The outer write loop of the paste over the parsed lines. -/
def pasteWrite (g : GridState) (idx : Nat) : List (List String) → GridState
  | [] => g
  | cells :: rest => pasteWrite (pasteWriteStep g idx cells) (idx + 1) rest

/-- The post-paste update pass for pasted row i: re-highlight a registered new
row (color_row for others is presentation only), and enter a row bearing a
truthy identity, not registered as new, into the changes dict. -/
def pasteUpdateStep (start : Nat) (g : GridState) (i : Nat) : GridState :=
  let row := start + i
  if row < g.rows.length then
    let t := extract_row g row
    let g1 := if row ∈ g.new_rows then highlight_new_row g row else g
    if pyTruthyOpt t.id ∧ row ∉ g1.new_rows then
      { g1 with changes := dictSet g1.changes (t.id.getD 0) t }
    else g1
  else g

/-- paste_from_clipboard with the multi-row confirmation answered Yes;
startRow is self.currentRow() as resolved by the source (defaulting to the
last row when no cell is current). Signals are disconnected during the write,
so no on_item_changed runs. -/
def paste_from_clipboard (g : GridState) (text : String) (startRow : Nat) : GridState :=
  if text = "" then g
  else
    let rowsData := parseClipboard text
    if rowsData = [] then g
    else
      let g1 := pasteWrite g startRow rowsData
      (List.range rowsData.length).foldl (pasteUpdateStep startRow) g1

/-- TransactionTypeDelegate.setModelData on a row: commit the chosen type text
and clear both the category and subcategory cells (text and UserRole). -/
def TransactionTypeDelegate.setModelData (value : String) (r : Row) : Row :=
  { r with typeCell := { r.typeCell with text := value },
           categoryCell := { text := "", data := .nodata },
           subCategoryCell := { text := "", data := .nodata } }

/-- CategoryDelegate.setModelData on a row: commit the chosen category name
and id and clear the subcategory cell (text and UserRole). -/
def CategoryDelegate.setModelData (category_name : String) (category_id : Option Nat)
    (r : Row) : Row :=
  { r with categoryCell := { text := category_name, data := .ofRef category_id },
           subCategoryCell := { text := "", data := .nodata } }

/-! Concrete fixtures used by scenario theorems and witnesses. -/

/-- A lookup provider with one account named "Checking" under id 1. -/
def lkA : Lookup :=
  { accountName := fun n => if n = 1 then some "Checking" else none,
    categoryName := fun _ => none,
    subCategoryName := fun _ => none }

def dbEmpty : Store := { rows := [], nextId := 1, writeCount := 0 }

/-- A fully valid transaction record. -/
def tAllFields : Transaction :=
  { emptyTxn with name := "Coffee", account_id := some 1,
                  transaction_type := "Expense", date := "2024-01-02" }

/-- Valid except for the account reference. -/
def tNoAccount : Transaction :=
  { emptyTxn with name := "Coffee", transaction_type := "Expense", date := "2024-01-02" }

/-! Basic facts about the Python-primitive models. -/

theorem pyTruthyStr_iff (s : String) : pyTruthyStr s = true ↔ s ≠ "" := by
  simp [pyTruthyStr]

theorem pyTruthyStr_false_iff (s : String) : pyTruthyStr s = false ↔ s = "" := by
  simp [pyTruthyStr]

/-! ## C3 — validation order -/

/-- C3: for every record, validate_transaction fails with exactly the message
of the first violated rule in the fixed order name → account → type → date,
succeeds when all four required fields are present, and never examines the
category or subcategory references. -/
theorem validate_first_violated_rule (t : Transaction) :
    (pyStrBlank t.name = true → validate_transaction t = (false, "Name is required")) ∧
    (pyStrBlank t.name = false → pyTruthyOpt t.account_id = false →
      validate_transaction t = (false, "Account is required")) ∧
    (pyStrBlank t.name = false → pyTruthyOpt t.account_id = true →
      t.transaction_type = "" → validate_transaction t = (false, "Type is required")) ∧
    (pyStrBlank t.name = false → pyTruthyOpt t.account_id = true →
      t.transaction_type ≠ "" → t.date = "" →
      validate_transaction t = (false, "Date is required")) ∧
    (pyStrBlank t.name = false → pyTruthyOpt t.account_id = true →
      t.transaction_type ≠ "" → t.date ≠ "" → validate_transaction t = (true, "")) ∧
    (∀ c s, validate_transaction
        { t with category_id := c, sub_category_id := s } = validate_transaction t) := by
  refine ⟨?_, ?_, ?_, ?_, ?_, fun c s => rfl⟩ <;>
    · intros
      simp_all [validate_transaction, pyTruthyStr]

/-- Witness for C3 at concrete records: a missing account is reported exactly
as "Account is required", a complete record validates, and category data is
irrelevant. -/
theorem validate_first_violated_rule_witness :
    validate_transaction tNoAccount = (false, "Account is required") ∧
    validate_transaction tAllFields = (true, "") ∧
    validate_transaction { tAllFields with category_id := some 9, sub_category_id := some 9 } =
      validate_transaction tAllFields :=
  ⟨(validate_first_violated_rule tNoAccount).2.1 (by decide) (by decide),
   (validate_first_violated_rule tAllFields).2.2.2.2.1 (by decide) (by decide)
     (by decide) (by decide),
   (validate_first_violated_rule tAllFields).2.2.2.2.2 (some 9) (some 9)⟩

/-! ## C6 — dropdown cascade -/

/-- C6: committing a type through TransactionTypeDelegate.setModelData clears
the row's category and subcategory cells to empty text with no id payload,
for every prior selection; committing a category through
CategoryDelegate.setModelData clears the row's subcategory cell likewise. -/
theorem type_change_clears_category_cascade (v nm : String) (cid : Option Nat) (r : Row) :
    (TransactionTypeDelegate.setModelData v r).typeCell.text = v ∧
    (TransactionTypeDelegate.setModelData v r).categoryCell =
      { text := "", data := CellData.nodata } ∧
    (TransactionTypeDelegate.setModelData v r).subCategoryCell =
      { text := "", data := CellData.nodata } ∧
    (CategoryDelegate.setModelData nm cid r).categoryCell =
      { text := nm, data := CellData.ofRef cid } ∧
    (CategoryDelegate.setModelData nm cid r).subCategoryCell =
      { text := "", data := CellData.nodata } :=
  ⟨rfl, rfl, rfl, rfl, rfl⟩

/-! ## C10 — total row extraction -/

/-- A row whose Value cell text does not parse as a number, stored over a
transaction whose prior value is 7. -/
def rowBadValue : Row :=
  { idCell := { text := "", data := .txn { emptyTxn with value := 7 } },
    nameCell := { text := "Lunch", data := .nodata },
    descCell := { text := "", data := .nodata },
    accountCell := { text := "", data := .nodata },
    typeCell := { text := "", data := .nodata },
    valueCell := { text := "abc", data := .nodata },
    categoryCell := { text := "", data := .nodata },
    subCategoryCell := { text := "", data := .nodata },
    dateCell := { text := "", data := .nodata } }

def gBadValue : GridState := { emptyGrid with rows := [rowBadValue] }

/-- C10: get_transaction_from_row is total — an out-of-range row yields None,
an in-range row always yields a record, and a Value text rejected by float()
makes the extracted value 0 (replacing whatever value the bound record
carried) instead of raising. -/
theorem get_transaction_total_and_value_fallback (g : GridState) (row : Nat) :
    (g.rows.length ≤ row → get_transaction_from_row g row = none) ∧
    (row < g.rows.length → get_transaction_from_row g row = some (extract_row g row)) ∧
    (pyFloat? (rowAt g row).valueCell.text = none → (extract_row g row).value = 0) := by
  refine ⟨fun h => ?_, fun h => ?_, fun h => ?_⟩
  · simp [get_transaction_from_row, Nat.not_lt.mpr h]
  · simp [get_transaction_from_row, h]
  · simp [extract_row, h]

/-- Witness for C10: on the concrete grid the out-of-range index 5 yields
None, row 0 yields a record, and its value is 0 despite the bound record's
prior value 7, because "abc" does not parse. -/
theorem get_transaction_total_and_value_fallback_witness :
    get_transaction_from_row gBadValue 5 = none ∧
    get_transaction_from_row gBadValue 0 = some (extract_row gBadValue 0) ∧
    (extract_row gBadValue 0).value = 0 :=
  ⟨(get_transaction_total_and_value_fallback gBadValue 5).1 (by decide),
   (get_transaction_total_and_value_fallback gBadValue 0).2.1 (by decide),
   (get_transaction_total_and_value_fallback gBadValue 0).2.2 (by decide)⟩

/-! ## C5 — the Add-Sentinel row after load_transactions -/

/-- No row of the list carries the sentinel marker. -/
def noMarkerRows (l : List Row) : Prop := ∀ r ∈ l, r.nameCell.data ≠ CellData.marker

theorem rowAt_mem_or_default (g : GridState) (row : Nat) :
    rowAt g row ∈ g.rows ∨ rowAt g row = default := by
  unfold rowAt
  by_cases h : row < g.rows.length
  · left
    rw [List.get?_eq_get h]
    exact List.get_mem _ _ _
  · right
    rw [List.get?_eq_none.mpr (Nat.le_of_not_lt h)]
    rfl

theorem noMarkerRows_modifyRow {g : GridState} {row : Nat} {f : Row → Row}
    (hf : ∀ x, (f x).nameCell.data = x.nameCell.data)
    (h : noMarkerRows g.rows) : noMarkerRows (modifyRow g row f).rows := by
  intro r hr
  rcases List.mem_or_eq_of_mem_set hr with h1 | rfl
  · exact h r h1
  · rw [hf]
    rcases rowAt_mem_or_default g row with hm | hd
    · exact h _ hm
    · rw [hd]
      intro hcontra
      exact absurd hcontra (by simp [default])

theorem highlight_new_row_rows_cases (g : GridState) (row : Nat) :
    (highlight_new_row g row).rows = g.rows ∨
    ∃ s, (highlight_new_row g row).rows =
      g.rows.set row { rowAt g row with nameCell := { (rowAt g row).nameCell with text := s } } := by
  unfold highlight_new_row
  by_cases h1 : row ∈ g.new_rows <;> simp only [h1, if_true, if_false, ite_true, ite_false] <;>
    · split
      · split
        · right; exact ⟨_, rfl⟩
        · left; rfl
      · left; rfl

theorem noMarkerRows_highlight_new_row {g : GridState} (row : Nat)
    (h : noMarkerRows g.rows) : noMarkerRows (highlight_new_row g row).rows := by
  rcases highlight_new_row_rows_cases g row with hc | ⟨s, hc⟩
  · rw [hc]; exact h
  · rw [hc]
    intro r hr
    rcases List.mem_or_eq_of_mem_set hr with h1 | rfl
    · exact h r h1
    · show (rowAt g row).nameCell.data ≠ CellData.marker
      rcases rowAt_mem_or_default g row with hm | hd
      · exact h _ hm
      · rw [hd]
        intro hcontra
        exact absurd hcontra (by simp [default])

theorem noMarkerRows_appendUnsaved (lk : Lookup) {g : GridState} (t : Transaction)
    (h : noMarkerRows g.rows) : noMarkerRows (appendUnsaved lk g t).rows := by
  unfold appendUnsaved
  apply noMarkerRows_highlight_new_row
  intro r hr
  rcases List.mem_append.mp hr with h1 | h1
  · exact h r h1
  · have : r = unsavedRow lk t := by simpa using h1
    rw [this]
    simp [unsavedRow]

theorem noMarkerRows_foldl_appendUnsaved (lk : Lookup) (us : List Transaction) :
    ∀ (g : GridState), noMarkerRows g.rows →
      noMarkerRows (us.foldl (appendUnsaved lk) g).rows := by
  induction us with
  | nil => intro g h; exact h
  | cons t rest ih =>
    intro g h
    exact ih _ (noMarkerRows_appendUnsaved lk t h)

theorem noMarkerRows_populated (ts : List Transaction) :
    noMarkerRows (ts.map populate_row) := by
  intro r hr
  rcases List.mem_map.mp hr with ⟨t, _, rfl⟩
  simp [populate_row]

/-- C5: after any load_transactions, the Add-Sentinel row is exactly the last
row and exactly one such row exists in the grid, for every prior grid state
and every loaded record list. -/
theorem load_sentinel_exactly_last (lk : Lookup) (g : GridState) (ts : List Transaction) :
    (load_transactions lk g ts).rows.getLast? = some emptyRow ∧
    (load_transactions lk g ts).rows.countP (fun r => r.nameCell.data == CellData.marker) = 1 ∧
    ((load_transactions lk g ts).rows.dropLast).countP
      (fun r => r.nameCell.data == CellData.marker) = 0 := by
  have hbody : noMarkerRows ((collectUnsaved g).foldl (appendUnsaved lk)
      { rows := ts.map populate_row, changes := [], new_rows := [], modified_rows := [],
        error_rows := [], error_fields := [],
        undo_stack := g.undo_stack, redo_stack := g.redo_stack } : GridState).rows :=
    noMarkerRows_foldl_appendUnsaved lk _ _ (noMarkerRows_populated ts)
  have hcount0 : ∀ l : List Row, noMarkerRows l →
      l.countP (fun r => r.nameCell.data == CellData.marker) = 0 := by
    intro l hl
    rw [List.countP_eq_zero]
    intro r hr
    simpa using hl r hr
  refine ⟨?_, ?_, ?_⟩
  · show ((_ : GridState).rows ++ [emptyRow]).getLast? = some emptyRow
    simp [load_transactions, add_empty_row]
  · show ((_ : GridState).rows ++ [emptyRow]).countP _ = 1
    rw [List.countP_append, hcount0 _ hbody]
    rfl
  · show (((_ : GridState).rows ++ [emptyRow]).dropLast).countP _ = 0
    rw [List.dropLast_concat]
    exact hcount0 _ hbody

/-! ## C4 — lifecycle tagging after paste -/

/-- A grid holding only the Add-Sentinel row. -/
def gSentinelOnly : GridState := add_empty_row emptyGrid

/-- One pasted line written over the sentinel row. -/
def gPastedOnce : GridState := paste_from_clipboard gSentinelOnly "Lunch\tfood\n" 0

/-- The same cell text entered as a manual edit: the item text changes and
on_item_changed fires for that cell. -/
def gManualEdit : GridState :=
  on_item_changed (modifyRow gSentinelOnly 0 (fun r => r.setColText 1 "Lunch")) 0 1

/-- Counterexample to C4 as stated: pasting one line over the sentinel writes
the cells (name "Lunch", record without identity) but the written row is NOT
registered among new rows (it even keeps the sentinel marker), while the same
edit done manually does register the row as Unsaved-New. -/
theorem paste_lifecycle_counterexample :
    (rowAt gPastedOnce 0).nameCell.text = "Lunch" ∧
    (extract_row gPastedOnce 0).id = none ∧
    gPastedOnce.new_rows = [] ∧
    isAddRowAt gPastedOnce 0 = true ∧
    gManualEdit.new_rows = [0] := by
  refine ⟨?_, ?_, ?_, ?_, ?_⟩ <;> decide

theorem add_empty_row_registries (g : GridState) :
    (add_empty_row g).new_rows = g.new_rows ∧ (add_empty_row g).modified_rows = g.modified_rows :=
  ⟨rfl, rfl⟩

theorem pasteWriteStep_registries (g : GridState) (idx : Nat) (cells : List String) :
    (pasteWriteStep g idx cells).new_rows = g.new_rows ∧
    (pasteWriteStep g idx cells).modified_rows = g.modified_rows := by
  simp only [pasteWriteStep]
  constructor <;> split <;> split <;> rfl

theorem pasteWrite_registries (data : List (List String)) :
    ∀ (g : GridState) (idx : Nat),
      (pasteWrite g idx data).new_rows = g.new_rows ∧
      (pasteWrite g idx data).modified_rows = g.modified_rows := by
  induction data with
  | nil => intro g idx; exact ⟨rfl, rfl⟩
  | cons cells rest ih =>
    intro g idx
    show (pasteWrite (pasteWriteStep g idx cells) (idx + 1) rest).new_rows = _ ∧
      (pasteWrite (pasteWriteStep g idx cells) (idx + 1) rest).modified_rows = _
    refine ⟨?_, ?_⟩
    · rw [(ih _ (idx + 1)).1, (pasteWriteStep_registries g idx cells).1]
    · rw [(ih _ (idx + 1)).2, (pasteWriteStep_registries g idx cells).2]

theorem highlight_new_row_modified_rows (g : GridState) (row : Nat) :
    (highlight_new_row g row).modified_rows = g.modified_rows := by
  unfold highlight_new_row
  by_cases h1 : row ∈ g.new_rows <;> simp only [h1, ite_true, ite_false] <;>
    · split
      · split <;> rfl
      · rfl

theorem highlight_new_row_new_rows_of_mem {g : GridState} {row : Nat}
    (h : row ∈ g.new_rows) : (highlight_new_row g row).new_rows = g.new_rows := by
  unfold highlight_new_row
  simp only [h, ite_true]
  split
  · split <;> rfl
  · rfl

theorem pasteUpdateStep_registries (start : Nat) (g : GridState) (i : Nat) :
    (pasteUpdateStep start g i).new_rows = g.new_rows ∧
    (pasteUpdateStep start g i).modified_rows = g.modified_rows := by
  simp only [pasteUpdateStep]
  split
  · by_cases hmem : start + i ∈ g.new_rows
    · simp only [hmem, ite_true]
      have h1 := highlight_new_row_new_rows_of_mem hmem
      have h2 := highlight_new_row_modified_rows g (start + i)
      split
      · exact ⟨h1, h2⟩
      · exact ⟨h1, h2⟩
    · simp only [hmem, ite_false]
      split
      · exact ⟨rfl, rfl⟩
      · exact ⟨rfl, rfl⟩
  · exact ⟨rfl, rfl⟩

theorem foldl_pasteUpdateStep_registries (start : Nat) (l : List Nat) :
    ∀ (g : GridState),
      (l.foldl (pasteUpdateStep start) g).new_rows = g.new_rows ∧
      (l.foldl (pasteUpdateStep start) g).modified_rows = g.modified_rows := by
  induction l with
  | nil => intro g; exact ⟨rfl, rfl⟩
  | cons i rest ih =>
    intro g
    refine ⟨?_, ?_⟩
    · rw [List.foldl_cons, (ih _).1, (pasteUpdateStep_registries start g i).1]
    · rw [List.foldl_cons, (ih _).2, (pasteUpdateStep_registries start g i).2]

/-- C4 amended: paste_from_clipboard performs no lifecycle re-tagging at all —
the Unsaved-New registry and the Persisted-Modified registry are exactly what
they were before the paste, for every grid, clipboard text and start row (so
an identity-less written row that was not already registered is not picked up
by a later saveAll; identity-bearing rows are only entered into the
pending-changes dict). -/
theorem paste_preserves_row_registries (g : GridState) (text : String) (start : Nat) :
    (paste_from_clipboard g text start).new_rows = g.new_rows ∧
    (paste_from_clipboard g text start).modified_rows = g.modified_rows := by
  by_cases ht : text = ""
  · simp [paste_from_clipboard, ht]
  · by_cases hr : parseClipboard text = []
    · simp [paste_from_clipboard, ht, hr]
    · have hpaste : paste_from_clipboard g text start =
        List.foldl (pasteUpdateStep start) (pasteWrite g start (parseClipboard text))
          (List.range (parseClipboard text).length) := by
        simp [paste_from_clipboard, ht, hr]
      rw [hpaste]
      refine ⟨?_, ?_⟩
      · rw [(foldl_pasteUpdateStep_registries start _ _).1,
            (pasteWrite_registries _ g start).1]
      · rw [(foldl_pasteUpdateStep_registries start _ _).2,
            (pasteWrite_registries _ g start).2]

/-! ## C1 — per-row save of a 3-new-row batch -/

/-- A registered Unsaved-New row as the grid holds it: empty ID cell over the
sentinel-born record, NEW:-decorated name, and the remaining fields filled. -/
def mkNewRowFix (nm : String) (acct : Option Nat) : Row :=
  { idCell := { text := "", data := .txn emptyTxn },
    nameCell := { text := nm, data := .nodata },
    descCell := { text := "", data := .nodata },
    accountCell := { text := if acct.isSome then "Checking" else "", data := .ofRef acct },
    typeCell := { text := "Expense", data := .nodata },
    valueCell := { text := "5", data := .nodata },
    categoryCell := { text := "", data := .nodata },
    subCategoryCell := { text := "", data := .nodata },
    dateCell := { text := "2024-01-01", data := .nodata } }

/-- Three new rows awaiting save — the middle one without an account — plus
the Add-Sentinel. -/
def gThreeNew : GridState :=
  { rows := [mkNewRowFix "NEW: Alpha" (some 1), mkNewRowFix "NEW: Bravo" none,
             mkNewRowFix "NEW: Gamma" (some 1), emptyRow],
    changes := [], new_rows := [0, 1, 2], modified_rows := [], error_rows := [],
    error_fields := [], undo_stack := [], redo_stack := [] }

/-- C1 at the failing input: saving three new rows where row 1 lacks an
account returns failure with error list [(1, "Account is required")] and tags
row 1 Error, but persists ONLY row 0 — row 2, though valid, is skipped
entirely (one single insert reaches the store and row 2 stays registered as
new), because highlight_error_row removes the failing row from new_rows while
save_all_changes is iterating that same list. -/
theorem save_all_skips_row_after_error :
    (save_all_changes lkA gThreeNew dbEmpty).ok = false ∧
    (save_all_changes lkA gThreeNew dbEmpty).errors = [(1, "Account is required")] ∧
    ((save_all_changes lkA gThreeNew dbEmpty).db.rows.map (fun t => t.name)) = ["Alpha"] ∧
    (save_all_changes lkA gThreeNew dbEmpty).db.writeCount = 1 ∧
    (save_all_changes lkA gThreeNew dbEmpty).grid.new_rows = [2] ∧
    1 ∈ (save_all_changes lkA gThreeNew dbEmpty).grid.error_rows := by
  refine ⟨?_, ?_, ?_, ?_, ?_, ?_⟩ <;> decide

/-! ## C7 — undo after deleting a persisted row -/

/-- A persisted transaction as stored under id 1. -/
def tRent : Transaction :=
  { id := some 1, name := "Rent", description := "d", account_id := some 1,
    transaction_type := "Expense", category_id := none, sub_category_id := none,
    date := "2024-01-01", value := 5,
    account_name := none, category_name := none, sub_category_name := none }

def dbRent : Store := { rows := [tRent], nextId := 2, writeCount := 0 }

/-- The grid after loading the one-row store. -/
def gLoadedRent : GridState :=
  load_transactions lkA emptyGrid (get_transactions_with_details lkA dbRent)

def delRent : GridState × Store := delete_selected_transaction gLoadedRent dbRent [0]

def undoRent : GridState × Store := undo lkA delRent.1 delRent.2

def redoRent : GridState × Store := redo lkA undoRent.1 undoRent.2

/-- C7 at the failing input: deleting the persisted row empties the store and
pushes the snapshot; undo then executes exactly one write which restores
NOTHING — the store still has no row at all (in particular none with the
snapshot's field values and a fresh identity) because the snapshot kept its
stale id, so Transaction.save issued an UPDATE matching no row instead of the
re-insert the spec describes; redo leaves the store empty as well. -/
theorem undo_fails_to_restore_deleted_row :
    delRent.2.rows = [] ∧
    delRent.1.undo_stack.length = 1 ∧
    undoRent.2.rows = [] ∧
    undoRent.2.writeCount = delRent.2.writeCount + 1 ∧
    redoRent.2.rows = [] := by
  refine ⟨?_, ?_, ?_, ?_, ?_⟩ <;> decide

/-! ## C2 — the pending-changes map after a failed save -/

/-- The pending edit of the persisted row: its name cleared, hence invalid. -/
def tRentBlank : Transaction := { tRent with name := "" }

/-- The grid row showing that pending edit. -/
def rowRentBlank : Row :=
  { idCell := { text := "1", data := .txn tRentBlank },
    nameCell := { text := "", data := .nodata },
    descCell := { text := "d", data := .nodata },
    accountCell := { text := "Checking", data := .ref 1 },
    typeCell := { text := "Expense", data := .nodata },
    valueCell := { text := "5", data := .nodata },
    categoryCell := { text := "", data := .nodata },
    subCategoryCell := { text := "", data := .nodata },
    dateCell := { text := "2024-01-01", data := .nodata } }

/-- A grid with one Persisted-Modified row whose pending change is invalid. -/
def gPendingBlank : GridState :=
  { rows := [rowRentBlank, emptyRow], changes := [(1, tRentBlank)], new_rows := [],
    modified_rows := [0], error_rows := [], error_fields := [],
    undo_stack := [], redo_stack := [] }

/-- Counterexample to C2 as stated: the save fails with
[(0, "Name is required")] and nothing is persisted, yet the pending-changes
map comes back EMPTY — the entry (1, ·) for the record whose validation
failed is lost, not retained. -/
theorem changes_lost_on_failed_save_counterexample :
    (save_all_changes lkA gPendingBlank dbRent).ok = false ∧
    (save_all_changes lkA gPendingBlank dbRent).errors = [(0, "Name is required")] ∧
    (save_all_changes lkA gPendingBlank dbRent).grid.changes = [] ∧
    (save_all_changes lkA gPendingBlank dbRent).db = dbRent := by
  refine ⟨?_, ?_, ?_, ?_⟩ <;> decide

/-- Errors collected so far are all tagged in the grid's error-row registry. -/
def ErrInv (g : GridState) (errs : List (Nat × String)) : Prop :=
  ∀ p ∈ errs, p.1 ∈ g.error_rows

theorem highlight_error_row_error_rows (g : GridState) (row : Nat) (msg : String) :
    (highlight_error_row g row msg).error_rows =
      if row ∈ g.error_rows then g.error_rows else g.error_rows ++ [row] := by
  by_cases h1 : row ∈ g.error_rows <;>
    simp only [highlight_error_row, h1, ite_true, ite_false] <;>
    split <;> split <;> split <;> rfl

theorem highlight_error_row_changes (g : GridState) (row : Nat) (msg : String) :
    (highlight_error_row g row msg).changes = g.changes := by
  by_cases h1 : row ∈ g.error_rows <;>
    simp only [highlight_error_row, h1, ite_true, ite_false] <;>
    split <;> split <;> split <;> rfl

theorem mem_error_rows_highlight_old {g : GridState} {row : Nat} {msg : String} {a : Nat}
    (h : a ∈ g.error_rows) : a ∈ (highlight_error_row g row msg).error_rows := by
  rw [highlight_error_row_error_rows]
  split
  · exact h
  · exact List.mem_append_left _ h

theorem mem_error_rows_highlight_self (g : GridState) (row : Nat) (msg : String) :
    row ∈ (highlight_error_row g row msg).error_rows := by
  rw [highlight_error_row_error_rows]
  split
  · assumption
  · simp

theorem processChange_errinv (t : Transaction) (acc : GridState × Store × List (Nat × String))
    (h : ErrInv acc.1 acc.2.2) :
    ErrInv (processChange acc t).1 (processChange acc t).2.2 := by
  obtain ⟨g, db, errs⟩ := acc
  simp only [processChange]
  split
  · exact h
  · split
    · intro p hp
      rcases List.mem_append.mp hp with hp | hp
      · exact mem_error_rows_highlight_old (h p hp)
      · rw [List.mem_singleton.mp hp]
        exact mem_error_rows_highlight_self _ _ _
    · exact h

theorem foldl_processChange_errinv (ts : List Transaction) :
    ∀ (acc : GridState × Store × List (Nat × String)), ErrInv acc.1 acc.2.2 →
      ErrInv (ts.foldl processChange acc).1 (ts.foldl processChange acc).2.2 := by
  induction ts with
  | nil => intro acc h; exact h
  | cons t rest ih => intro acc h; exact ih _ (processChange_errinv t acc h)

theorem modifyRow_error_rows (g : GridState) (row : Nat) (f : Row → Row) :
    (modifyRow g row f).error_rows = g.error_rows := rfl

theorem stripNewDecoration_error_rows (st : LoopState) (row : Nat) :
    (stripNewDecoration st row).2.error_rows = st.g.error_rows := by
  simp only [stripNewDecoration]
  split <;> rfl

theorem stripNewDecoration_new_rows (st : LoopState) (row : Nat) :
    (stripNewDecoration st row).2.new_rows = st.g.new_rows := by
  simp only [stripNewDecoration]
  split <;> rfl

theorem stripNewDecoration_changes (st : LoopState) (row : Nat) :
    (stripNewDecoration st row).2.changes = st.g.changes := by
  simp only [stripNewDecoration]
  split <;> rfl

theorem stripNewDecoration_rows_length (st : LoopState) (row : Nat) :
    (stripNewDecoration st row).2.rows.length = st.g.rows.length := by
  simp only [stripNewDecoration]
  split
  · show (st.g.rows.set row _).length = _
    exact List.length_set _ _ _
  · rfl

theorem saveNewRowStep_errinv (st : LoopState) (row : Nat)
    (h : ErrInv st.g st.errs) :
    ErrInv (saveNewRowStep st row).g (saveNewRowStep st row).errs := by
  have herr := stripNewDecoration_error_rows st row
  simp only [saveNewRowStep]
  split
  · split
    · exact h
    · split
      · intro p hp
        rw [herr]
        exact h p hp
      · intro p hp
        rcases List.mem_append.mp hp with hp | hp
        · exact mem_error_rows_highlight_old (herr ▸ h p hp)
        · rw [List.mem_singleton.mp hp]
          exact mem_error_rows_highlight_self _ _ _
  · exact h

theorem saveNewRowsLoop_errinv (fuel : Nat) :
    ∀ (idx : Nat) (st : LoopState), ErrInv st.g st.errs →
      ErrInv (saveNewRowsLoop fuel idx st).g (saveNewRowsLoop fuel idx st).errs := by
  induction fuel with
  | zero => intro idx st h; exact h
  | succ fuel ih =>
    intro idx st h
    simp only [saveNewRowsLoop]
    split
    · exact h
    · exact ih _ _ (saveNewRowStep_errinv st _ h)

theorem reapplyErrors_changes (errs : List (Nat × String)) :
    ∀ (g : GridState), (reapplyErrors g errs).changes = g.changes := by
  induction errs with
  | nil => intro g; rfl
  | cons p rest ih =>
    intro g
    show (reapplyErrors (if p.1 < g.rows.length then highlight_error_row g p.1 p.2 else g)
      rest).changes = _
    rw [ih]
    split
    · exact highlight_error_row_changes g p.1 p.2
    · rfl

theorem reapplyErrors_error_mono (errs : List (Nat × String)) :
    ∀ (g : GridState) (a : Nat), a ∈ g.error_rows → a ∈ (reapplyErrors g errs).error_rows := by
  induction errs with
  | nil => intro g a h; exact h
  | cons p rest ih =>
    intro g a h
    show a ∈ (reapplyErrors (if p.1 < g.rows.length then highlight_error_row g p.1 p.2 else g)
      rest).error_rows
    apply ih
    split
    · exact mem_error_rows_highlight_old h
    · exact h

theorem save_post_failure_props (lk : Lookup) (st : LoopState)
    (hInv : ErrInv st.g st.errs) (hne : st.errs ≠ []) :
    (save_all_post lk st).ok = false ∧
    (save_all_post lk st).grid.changes = [] ∧
    (save_all_post lk st).errors = st.errs ∧
    ∀ p ∈ (save_all_post lk st).errors, p.1 ∈ (save_all_post lk st).grid.error_rows := by
  have hif : save_all_post lk st =
      { grid := reapplyErrors
          { st.g with new_rows := st.g.new_rows.filter (fun r => decide (r ∉ st.saved)),
                      changes := [] } st.errs,
        db := st.db, ok := false, errors := st.errs } := by
    simp only [save_all_post, if_neg hne]
  rw [hif]
  refine ⟨rfl, ?_, rfl, ?_⟩
  · rw [reapplyErrors_changes]
  · intro p hp
    exact reapplyErrors_error_mono _ _ _ (hInv p hp)

theorem save_all_as_post (lk : Lookup) (g : GridState) (db : Store) :
    save_all_changes lk g db = save_all_post lk
      (saveNewRowsLoop ((g.changes.map Prod.snd).foldl processChange (g, db, [])).1.new_rows.length 0
        { g := ((g.changes.map Prod.snd).foldl processChange (g, db, [])).1,
          db := ((g.changes.map Prod.snd).foldl processChange (g, db, [])).2.1,
          saved := [], errs := ((g.changes.map Prod.snd).foldl processChange (g, db, [])).2.2 }) :=
  rfl

/-- C2 amended: when save_all_changes ends with a non-empty error list it
reports failure with exactly the collected ordered (rowIndex, message) list
and every erroring row tagged Error, but the pending-changes map is cleared
ENTIRELY — the entries of records whose validation failed are lost along with
those of persisted records. -/
theorem save_failure_clears_changes_and_keeps_error_tags
    (lk : Lookup) (g : GridState) (db : Store)
    (hne : (save_all_changes lk g db).errors ≠ []) :
    (save_all_changes lk g db).ok = false ∧
    (save_all_changes lk g db).grid.changes = [] ∧
    ∀ p ∈ (save_all_changes lk g db).errors,
      p.1 ∈ (save_all_changes lk g db).grid.error_rows := by
  have hInv0 : ErrInv g ([] : List (Nat × String)) := by
    intro p hp
    simp at hp
  have hInv1 := foldl_processChange_errinv (g.changes.map Prod.snd) (g, db, []) hInv0
  have hInv2 := saveNewRowsLoop_errinv
    ((g.changes.map Prod.snd).foldl processChange (g, db, [])).1.new_rows.length 0
    { g := ((g.changes.map Prod.snd).foldl processChange (g, db, [])).1,
      db := ((g.changes.map Prod.snd).foldl processChange (g, db, [])).2.1,
      saved := [], errs := ((g.changes.map Prod.snd).foldl processChange (g, db, [])).2.2 }
    hInv1
  rw [save_all_as_post] at hne ⊢
  have hne2 : (saveNewRowsLoop
      ((g.changes.map Prod.snd).foldl processChange (g, db, [])).1.new_rows.length 0
      { g := ((g.changes.map Prod.snd).foldl processChange (g, db, [])).1,
        db := ((g.changes.map Prod.snd).foldl processChange (g, db, [])).2.1,
        saved := [], errs := ((g.changes.map Prod.snd).foldl processChange (g, db, [])).2.2 }).errs
      ≠ [] := by
    intro hcontra
    apply hne
    simp [save_all_post, hcontra]
  obtain ⟨h1, h2, h3, h4⟩ := save_post_failure_props lk _ hInv2 hne2
  exact ⟨h1, h2, h4⟩

/-- Witness for C2 at the concrete failed save: the error list is non-empty,
the result is failure, the pending-changes map is empty, and the erroring
row 0 is tagged Error. -/
theorem save_failure_clears_changes_witness :
    (save_all_changes lkA gPendingBlank dbRent).errors ≠ [] ∧
    ((save_all_changes lkA gPendingBlank dbRent).ok = false ∧
     (save_all_changes lkA gPendingBlank dbRent).grid.changes = [] ∧
     ∀ p ∈ (save_all_changes lkA gPendingBlank dbRent).errors,
       p.1 ∈ (save_all_changes lkA gPendingBlank dbRent).grid.error_rows) :=
  ⟨by decide,
   save_failure_clears_changes_and_keeps_error_tags lkA gPendingBlank dbRent (by decide)⟩

/-! ## C9 — idempotence of save_all_changes on a fully-valid state -/

theorem isAddRowAt_modifyRow {g : GridState} {row : Nat} {f : Row → Row}
    (hf : ∀ x, (f x).nameCell.data = x.nameCell.data) (r : Nat) :
    isAddRowAt (modifyRow g row f) r = isAddRowAt g r := by
  unfold isAddRowAt modifyRow
  by_cases hij : row = r
  · subst hij
    by_cases hlt : row < g.rows.length
    · obtain ⟨x, hx⟩ : ∃ x, g.rows.get? row = some x := by
        rw [List.get?_eq_get hlt]
        exact ⟨_, rfl⟩
      have hset : (g.rows.set row (f (rowAt g row))).get? row = some (f (rowAt g row)) := by
        rw [List.get?_set_eq, hx]
        rfl
      rw [hset, hx]
      show ((f (rowAt g row)).nameCell.data == CellData.marker) = _
      rw [hf]
      unfold rowAt
      rw [hx]
      rfl
    · rw [List.set_eq_of_length_le (Nat.le_of_not_lt hlt)]
  · rw [List.get?_set_ne _ _ hij]

theorem stripNewDecoration_isAdd (st : LoopState) (row : Nat) (r : Nat) :
    isAddRowAt (stripNewDecoration st row).2 r = isAddRowAt st.g r := by
  simp only [stripNewDecoration]
  split
  · apply isAddRowAt_modifyRow
    intro x
    rfl
  · rfl

theorem saveNewRowStep_errs_mono (st : LoopState) (row : Nat) :
    ∃ d, (saveNewRowStep st row).errs = st.errs ++ d := by
  simp only [saveNewRowStep]
  split
  · split
    · exact ⟨[], by simp⟩
    · split
      · exact ⟨[], by simp⟩
      · exact ⟨[(row, _)], rfl⟩
  · exact ⟨[], by simp⟩

theorem saveNewRowsLoop_errs_mono (fuel : Nat) :
    ∀ (idx : Nat) (st : LoopState), ∃ d, (saveNewRowsLoop fuel idx st).errs = st.errs ++ d := by
  induction fuel with
  | zero => intro idx st; exact ⟨[], by simp [saveNewRowsLoop]⟩
  | succ fuel ih =>
    intro idx st
    simp only [saveNewRowsLoop]
    split
    · exact ⟨[], by simp⟩
    · obtain ⟨d1, hd1⟩ := saveNewRowStep_errs_mono st _
      obtain ⟨d2, hd2⟩ := ih (idx + 1) (saveNewRowStep st _)
      exact ⟨d1 ++ d2, by rw [hd2, hd1, List.append_assoc]⟩

theorem saveNewRowStep_saved_mono (st : LoopState) (row : Nat) {a : Nat}
    (h : a ∈ st.saved) : a ∈ (saveNewRowStep st row).saved := by
  simp only [saveNewRowStep]
  split
  · split
    · exact h
    · split
      · exact List.mem_append_left _ h
      · exact h
  · exact h

theorem saveNewRowsLoop_saved_mono (fuel : Nat) :
    ∀ (idx : Nat) (st : LoopState) (a : Nat), a ∈ st.saved →
      a ∈ (saveNewRowsLoop fuel idx st).saved := by
  induction fuel with
  | zero => intro idx st a h; exact h
  | succ fuel ih =>
    intro idx st a h
    simp only [saveNewRowsLoop]
    split
    · exact h
    · exact ih _ _ _ (saveNewRowStep_saved_mono st _ h)

theorem saveNewRowStep_no_error (st : LoopState) (row : Nat)
    (h : (saveNewRowStep st row).errs = st.errs) :
    (saveNewRowStep st row).g.new_rows = st.g.new_rows ∧
    (saveNewRowStep st row).g.rows.length = st.g.rows.length ∧
    (∀ r, isAddRowAt (saveNewRowStep st row).g r = isAddRowAt st.g r) ∧
    (row < st.g.rows.length → isAddRowAt st.g row = false →
      row ∈ (saveNewRowStep st row).saved) := by
  by_cases h1 : row < st.g.rows.length
  · by_cases h2 : isAddRowAt st.g row = true
    · have hstep : saveNewRowStep st row = st := by
        simp only [saveNewRowStep]
        rw [if_pos h1, if_pos h2]
      rw [hstep]
      exact ⟨rfl, rfl, fun r => rfl, fun _ hf => by rw [hf] at h2; cases h2⟩
    · by_cases h3 : (validate_transaction (stripNewDecoration st row).1).1 = true
      · have hstep : saveNewRowStep st row =
            { st with g := (stripNewDecoration st row).2,
                      db := ((stripNewDecoration st row).1.save st.db).2,
                      saved := st.saved ++ [row] } := by
          simp only [saveNewRowStep]
          rw [if_pos h1, if_neg h2, if_pos h3]
        rw [hstep]
        exact ⟨stripNewDecoration_new_rows st row, stripNewDecoration_rows_length st row,
               stripNewDecoration_isAdd st row, fun _ _ => List.mem_append_right _ (by simp)⟩
      · exfalso
        have hstep : (saveNewRowStep st row).errs = st.errs ++ [(row, (validate_transaction
            (stripNewDecoration st row).1).2)] := by
          simp only [saveNewRowStep]
          rw [if_pos h1, if_neg h2, if_neg h3]
        rw [hstep] at h
        have := congrArg List.length h
        simp at this
  · have hstep : saveNewRowStep st row = st := by
      simp only [saveNewRowStep]
      rw [if_neg h1]
    rw [hstep]
    exact ⟨rfl, rfl, fun r => rfl, fun hc => absurd hc h1⟩

theorem processChange_success (acc : GridState × Store × List (Nat × String)) (t : Transaction)
    (h : (processChange acc t).2.2 = []) :
    acc.2.2 = [] ∧ (processChange acc t).1 = acc.1 := by
  obtain ⟨g, db, errs⟩ := acc
  by_cases hv : (validate_transaction t).1 = true
  · have hpc : processChange (g, db, errs) t = (g, (t.save db).2, errs) := by
      simp only [processChange]
      rw [if_pos hv]
    rw [hpc] at h ⊢
    exact ⟨h, rfl⟩
  · cases hfind : findRowWithId g t.id with
    | some row =>
      have hpc : processChange (g, db, errs) t =
          (highlight_error_row g row (validate_transaction t).2, db,
           errs ++ [(row, (validate_transaction t).2)]) := by
        simp only [processChange]
        rw [if_neg hv, hfind]
      rw [hpc] at h
      exfalso
      have := congrArg List.length h
      simp at this
    | none =>
      have hpc : processChange (g, db, errs) t = (g, db, errs) := by
        simp only [processChange]
        rw [if_neg hv, hfind]
      rw [hpc] at h ⊢
      exact ⟨h, rfl⟩

theorem foldl_processChange_success (ts : List Transaction) :
    ∀ (acc : GridState × Store × List (Nat × String)),
      (ts.foldl processChange acc).2.2 = [] →
      acc.2.2 = [] ∧ (ts.foldl processChange acc).1 = acc.1 := by
  induction ts with
  | nil => intro acc h; exact ⟨h, rfl⟩
  | cons t rest ih =>
    intro acc h
    obtain ⟨h3, h4⟩ := ih (processChange acc t) h
    obtain ⟨h5, h6⟩ := processChange_success acc t h3
    refine ⟨h5, ?_⟩
    show (rest.foldl processChange (processChange acc t)).1 = acc.1
    rw [h4, h6]

theorem saveNewRowsLoop_success (fuel : Nat) :
    ∀ (idx : Nat) (st : LoopState), (saveNewRowsLoop fuel idx st).errs = [] →
      (saveNewRowsLoop fuel idx st).g.new_rows = st.g.new_rows ∧
      (saveNewRowsLoop fuel idx st).g.rows.length = st.g.rows.length ∧
      (∀ r, isAddRowAt (saveNewRowsLoop fuel idx st).g r = isAddRowAt st.g r) ∧
      (∀ k row, idx ≤ k → st.g.new_rows.get? k = some row →
        st.g.new_rows.length ≤ fuel + idx →
        row < st.g.rows.length → isAddRowAt st.g row = false →
        row ∈ (saveNewRowsLoop fuel idx st).saved) := by
  induction fuel with
  | zero =>
    intro idx st _
    refine ⟨rfl, rfl, fun r => rfl, ?_⟩
    intro k row hk hget hlen _ _
    exfalso
    obtain ⟨hklt, _⟩ := List.get?_eq_some.mp hget
    omega
  | succ fuel ih =>
    intro idx st h
    cases hidx : st.g.new_rows.get? idx with
    | none =>
      have hloop : saveNewRowsLoop (fuel + 1) idx st = st := by
        simp only [saveNewRowsLoop]
        rw [hidx]
      rw [hloop] at h ⊢
      refine ⟨rfl, rfl, fun r => rfl, ?_⟩
      intro k row hk hget _ _ _
      exfalso
      obtain ⟨hklt, _⟩ := List.get?_eq_some.mp hget
      have := List.get?_eq_none.mp hidx
      omega
    | some row0 =>
      have hloop : saveNewRowsLoop (fuel + 1) idx st =
          saveNewRowsLoop fuel (idx + 1) (saveNewRowStep st row0) := by
        simp only [saveNewRowsLoop]
        rw [hidx]
      rw [hloop] at h ⊢
      have h0 : (saveNewRowStep st row0).errs = [] := by
        obtain ⟨d2, hd2⟩ := saveNewRowsLoop_errs_mono fuel (idx + 1) (saveNewRowStep st row0)
        rw [hd2] at h
        exact (List.append_eq_nil.mp h).1
      have hstep_errs : (saveNewRowStep st row0).errs = st.errs := by
        obtain ⟨d1, hd1⟩ := saveNewRowStep_errs_mono st row0
        rw [h0]
        rw [hd1] at h0
        exact ((List.append_eq_nil.mp h0).1).symm
      obtain ⟨hs1, hs2, hs3, hs4⟩ := saveNewRowStep_no_error st row0 hstep_errs
      obtain ⟨hl1, hl2, hl3, hl4⟩ := ih (idx + 1) (saveNewRowStep st row0) h
      refine ⟨by rw [hl1, hs1], by rw [hl2, hs2], fun r => by rw [hl3 r, hs3 r], ?_⟩
      intro k row hk hget hlen hrow hadd
      by_cases hkidx : k = idx
      · subst hkidx
        rw [hget] at hidx
        have hroweq : row = row0 := Option.some.inj hidx
        subst hroweq
        exact saveNewRowsLoop_saved_mono fuel (k + 1) _ row (hs4 hrow hadd)
      · have hk2 : idx + 1 ≤ k := by omega
        exact hl4 k row hk2
          (by rw [hs1]; exact hget)
          (by rw [hs1]; omega)
          (by rw [hs2]; exact hrow)
          (by rw [hs3]; exact hadd)

theorem highlight_new_row_changes (g : GridState) (row : Nat) :
    (highlight_new_row g row).changes = g.changes := by
  unfold highlight_new_row
  by_cases h1 : row ∈ g.new_rows <;> simp only [h1, ite_true, ite_false] <;>
    · split
      · split <;> rfl
      · rfl

theorem foldl_appendUnsaved_changes (lk : Lookup) (us : List Transaction) :
    ∀ (g : GridState), (us.foldl (appendUnsaved lk) g).changes = g.changes := by
  induction us with
  | nil => intro g; rfl
  | cons t rest ih =>
    intro g
    show (rest.foldl (appendUnsaved lk) (appendUnsaved lk g t)).changes = _
    rw [ih, appendUnsaved, highlight_new_row_changes]

theorem load_transactions_changes (lk : Lookup) (g : GridState) (ts : List Transaction) :
    (load_transactions lk g ts).changes = [] := by
  unfold load_transactions add_empty_row
  show (_ : GridState).changes = []
  rw [foldl_appendUnsaved_changes]

theorem load_transactions_new_rows_nil (lk : Lookup) (g : GridState) (ts : List Transaction)
    (h : collectUnsaved g = []) : (load_transactions lk g ts).new_rows = [] := by
  unfold load_transactions
  rw [h]
  rfl

theorem save_all_post_ok (lk : Lookup) (st : LoopState) :
    (save_all_post lk st).ok = true ↔ st.errs = [] := by
  by_cases hn : st.errs = []
  · simp [save_all_post, hn]
  · simp [save_all_post, hn]

theorem save_all_post_success (lk : Lookup) (st : LoopState) (hn : st.errs = []) :
    save_all_post lk st =
      { grid := load_transactions lk
          { st.g with new_rows := st.g.new_rows.filter (fun r => decide (r ∉ st.saved)),
                      changes := [], error_rows := [], error_fields := [], modified_rows := [] }
          (get_transactions_with_details lk st.db),
        db := st.db, ok := true, errors := [] } := by
  simp only [save_all_post]
  rw [if_pos hn]

theorem save_all_success_grid (lk : Lookup) (g : GridState) (db : Store)
    (h : (save_all_changes lk g db).ok = true) :
    (save_all_changes lk g db).grid.changes = [] ∧
    (save_all_changes lk g db).grid.new_rows = [] := by
  rw [save_all_as_post] at h ⊢
  set ACC := (g.changes.map Prod.snd).foldl processChange (g, db, []) with hACC
  set ST := saveNewRowsLoop ACC.1.new_rows.length 0
      { g := ACC.1, db := ACC.2.1, saved := [], errs := ACC.2.2 } with hST
  have hok : ST.errs = [] := (save_all_post_ok lk ST).mp h
  rw [save_all_post_success lk ST hok]
  refine ⟨load_transactions_changes lk _ _, ?_⟩
  apply load_transactions_new_rows_nil
  obtain ⟨hL1, hL2, hL3, hL4⟩ := saveNewRowsLoop_success ACC.1.new_rows.length 0
    { g := ACC.1, db := ACC.2.1, saved := [], errs := ACC.2.2 } (by rw [← hST]; exact hok)
  rw [← hST] at hL1 hL2 hL3 hL4
  unfold collectUnsaved
  rw [List.filterMap_eq_nil_iff]
  intro row hrow
  show (if row < ST.g.rows.length then
          if !(isAddRowAt ST.g row) && (extract_row ST.g row).name != "" &&
              (extract_row ST.g row).name != "+"
          then some (extract_row ST.g row) else none
        else none) = none
  have hrow2 : row ∈ ST.g.new_rows.filter (fun r => decide (r ∉ ST.saved)) := hrow
  obtain ⟨hmem, hdec⟩ := List.mem_filter.mp hrow2
  have hnot : row ∉ ST.saved := of_decide_eq_true hdec
  have hmem2 : row ∈ ACC.1.new_rows := by
    have e : ST.g.new_rows = ACC.1.new_rows := hL1
    rw [e] at hmem
    exact hmem
  obtain ⟨k, hk⟩ := List.mem_iff_get?.mp hmem2
  by_cases hlt : row < ACC.1.rows.length
  · by_cases hadd : isAddRowAt ACC.1 row = false
    · exfalso
      apply hnot
      exact hL4 k row (Nat.zero_le k) hk
        (by show ACC.1.new_rows.length ≤ ACC.1.new_rows.length + 0; omega) hlt hadd
    · have haddT : isAddRowAt ACC.1 row = true := by
        cases hb : isAddRowAt ACC.1 row
        · exact absurd hb hadd
        · rfl
      have e3 : isAddRowAt ST.g row = true := by
        rw [hL3 row]
        exact haddT
      rw [e3]
      simp
  · have hne : ¬ row < ST.g.rows.length := by
      rw [hL2]
      exact hlt
    rw [if_neg hne]

/-- C9: save_all_changes is idempotent on a fully-valid state — if a call
returns success, an immediately following second call with no intervening
edits returns success as well and leaves the store COMPLETELY unchanged
(same rows, same id counter, same write count: no insert or update reaches
the Record Store). -/
theorem save_all_idempotent_on_success (lk : Lookup) (g : GridState) (db : Store)
    (h : (save_all_changes lk g db).ok = true) :
    (save_all_changes lk (save_all_changes lk g db).grid (save_all_changes lk g db).db).ok
      = true ∧
    (save_all_changes lk (save_all_changes lk g db).grid (save_all_changes lk g db).db).db
      = (save_all_changes lk g db).db := by
  obtain ⟨hch, hnew⟩ := save_all_success_grid lk g db h
  have h2 : save_all_changes lk (save_all_changes lk g db).grid (save_all_changes lk g db).db =
      save_all_post lk { g := (save_all_changes lk g db).grid,
                         db := (save_all_changes lk g db).db, saved := [], errs := [] } := by
    rw [save_all_as_post]
    have hmap : ((save_all_changes lk g db).grid.changes.map Prod.snd) = [] := by
      rw [hch]
      rfl
    rw [hmap]
    show save_all_post lk (saveNewRowsLoop (save_all_changes lk g db).grid.new_rows.length 0
      { g := (save_all_changes lk g db).grid, db := (save_all_changes lk g db).db,
        saved := [], errs := [] }) = _
    rw [hnew]
    rfl
  rw [h2]
  constructor
  · rw [save_all_post_ok]
  · simp [save_all_post]

/-- A grid holding one fully-valid registered new row plus the sentinel. -/
def gOneNew : GridState :=
  { rows := [mkNewRowFix "NEW: Alpha" (some 1), emptyRow],
    changes := [], new_rows := [0], modified_rows := [], error_rows := [],
    error_fields := [], undo_stack := [], redo_stack := [] }

/-- Witness for C9: on the concrete one-new-row grid the first save succeeds
and the theorem yields that the second save succeeds and leaves the store
untouched. -/
theorem save_all_idempotent_witness :
    (save_all_changes lkA gOneNew dbEmpty).ok = true ∧
    ((save_all_changes lkA (save_all_changes lkA gOneNew dbEmpty).grid
        (save_all_changes lkA gOneNew dbEmpty).db).ok = true ∧
     (save_all_changes lkA (save_all_changes lkA gOneNew dbEmpty).grid
        (save_all_changes lkA gOneNew dbEmpty).db).db =
       (save_all_changes lkA gOneNew dbEmpty).db) :=
  ⟨by decide, save_all_idempotent_on_success lkA gOneNew dbEmpty (by decide)⟩

/-! ## C8 — clipboard round trip -/

/-- A row whose name text contains a double quote, with empty other fields. -/
def rowQuoted : Row :=
  { idCell := { text := "", data := .txn emptyTxn },
    nameCell := { text := "a\"b", data := .nodata },
    descCell := { text := "x", data := .nodata },
    accountCell := { text := "", data := .nodata },
    typeCell := { text := "", data := .nodata },
    valueCell := { text := "", data := .nodata },
    categoryCell := { text := "", data := .nodata },
    subCategoryCell := { text := "", data := .nodata },
    dateCell := { text := "", data := .nodata } }

def gQuoted : GridState := { emptyGrid with rows := [rowQuoted, emptyRow] }

/-- Counterexample to C8 as stated: the quoted row's texts contain no tab or
newline, yet pasting the export back at the same row turns the name "a\"b"
into the csv-quoted "\"a\"\"b\"" — the round trip does not reproduce the
visible value, because csv.writer quotes the field and the paste path never
unquotes. -/
theorem clipboard_round_trip_counterexample :
    (rowAt gQuoted 0).nameCell.text = "a\"b" ∧
    (rowAt (paste_from_clipboard gQuoted (copy_selection_to_clipboard gQuoted [0]) 0)
        0).nameCell.text = "\"a\"\"b\"" ∧
    ("\"a\"\"b\"" : String) ≠ "a\"b" := by
  refine ⟨?_, ?_, ?_⟩ <;> decide

theorem pySplit_ne_nil (sep : Char) (l : List Char) : pySplitChar sep l ≠ [] := by
  induction l with
  | nil => simp [pySplitChar]
  | cons c cs ih =>
    simp only [pySplitChar]
    split
    · simp
    · split
      · simp
      · simp

theorem pySplit_no_sep (sep : Char) (l : List Char) (h : sep ∉ l) :
    pySplitChar sep l = [l] := by
  induction l with
  | nil => rfl
  | cons c cs ih =>
    have hc : ¬ c = sep := fun hcontra => h (hcontra ▸ List.mem_cons_self c cs)
    have hcs : sep ∉ cs := fun hcontra => h (List.mem_cons_of_mem c hcontra)
    simp only [pySplitChar]
    rw [if_neg hc, ih hcs]

theorem pySplit_append_sep (sep : Char) (x r : List Char) (h : sep ∉ x) :
    pySplitChar sep (x ++ sep :: r) = x :: pySplitChar sep r := by
  induction x with
  | nil =>
    simp only [List.nil_append, pySplitChar]
    simp
  | cons c cs ih =>
    have hc : ¬ c = sep := fun hcontra => h (hcontra ▸ List.mem_cons_self c cs)
    have hcs : sep ∉ cs := fun hcontra => h (List.mem_cons_of_mem c hcontra)
    simp only [List.cons_append, pySplitChar]
    rw [if_neg hc, List.append_eq, ih hcs]

theorem pySplit_joinSep (sep : Char) (ls : List (List Char)) (hne : ls ≠ [])
    (h : ∀ l ∈ ls, sep ∉ l) :
    pySplitChar sep (joinSep sep ls) = ls := by
  induction ls with
  | nil => exact absurd rfl hne
  | cons x rest ih =>
    cases rest with
    | nil =>
      show pySplitChar sep x = [x]
      exact pySplit_no_sep sep x (h x (List.mem_cons_self x []))
    | cons y t =>
      show pySplitChar sep (x ++ sep :: joinSep sep (y :: t)) = x :: y :: t
      rw [pySplit_append_sep sep x _ (h x (List.mem_cons_self x _))]
      rw [ih (by simp) (fun l hl => h l (List.mem_cons_of_mem x hl))]

theorem mem_joinSep {sep : Char} {c : Char} (ls : List (List Char))
    (h : c ∈ joinSep sep ls) : c = sep ∨ ∃ l ∈ ls, c ∈ l := by
  induction ls with
  | nil => simp [joinSep] at h
  | cons x rest ih =>
    cases rest with
    | nil =>
      right
      exact ⟨x, List.mem_cons_self x [], h⟩
    | cons y t =>
      have h2 : c ∈ x ++ sep :: joinSep sep (y :: t) := h
      rcases List.mem_append.mp h2 with hx | hr
      · exact Or.inr ⟨x, List.mem_cons_self x _, hx⟩
      · rcases List.mem_cons.mp hr with hc | hj
        · exact Or.inl hc
        · rcases ih hj with hc | ⟨l, hl, hcl⟩
          · exact Or.inl hc
          · exact Or.inr ⟨l, List.mem_cons_of_mem x hl, hcl⟩

theorem joinSep_mem_of {sep : Char} {c : Char} (ls : List (List Char)) (l : List Char)
    (hl : l ∈ ls) (hc : c ∈ l) : c ∈ joinSep sep ls := by
  induction ls with
  | nil => simp at hl
  | cons x rest ih =>
    cases rest with
    | nil =>
      have : l = x := by simpa using hl
      subst this
      exact hc
    | cons y t =>
      show c ∈ x ++ sep :: joinSep sep (y :: t)
      rcases List.mem_cons.mp hl with hlx | hlr
      · subst hlx
        exact List.mem_append_left _ hc
      · exact List.mem_append_right _ (List.mem_cons_of_mem _ (ih hlr))

theorem pySplit_newline_flatten (bodies : List (List Char))
    (h : ∀ b ∈ bodies, '\n' ∉ b) :
    pySplitChar '\n' ((bodies.map (fun b => b ++ ['\n'])).flatten) = bodies ++ [[]] := by
  induction bodies with
  | nil => rfl
  | cons b rest ih =>
    show pySplitChar '\n' ((b ++ ['\n']) ++ (rest.map (fun b => b ++ ['\n'])).flatten) = _
    rw [List.append_assoc]
    show pySplitChar '\n' (b ++ '\n' :: (rest.map (fun b => b ++ ['\n'])).flatten) = _
    rw [pySplit_append_sep _ _ _ (h b (List.mem_cons_self b rest))]
    rw [ih (fun b2 hb2 => h b2 (List.mem_cons_of_mem b hb2))]
    rfl

theorem insertAscNat_front (n : Nat) (ms : List Nat) (h : ∀ m ∈ ms, n ≤ m) :
    insertAscNat n ms = n :: ms := by
  cases ms with
  | nil => rfl
  | cons m t =>
    simp only [insertAscNat]
    rw [if_pos (h m (List.mem_cons_self m t))]

theorem sortAscNat_sorted (l : List Nat) (h : List.Pairwise (· ≤ ·) l) :
    sortAscNat l = l := by
  induction l with
  | nil => rfl
  | cons n ns ih =>
    show insertAscNat n (sortAscNat ns) = n :: ns
    rw [ih h.of_cons]
    exact insertAscNat_front n ns (fun m hm => List.rel_of_pairwise_cons h hm)

theorem csvField_id (f : List Char) (h : ∀ c ∈ f, needsQuote c = false) :
    csvField f = f := by
  unfold csvField
  rw [if_neg]
  intro hcontra
  obtain ⟨c, hc, hq⟩ := List.any_eq_true.mp hcontra
  rw [h c hc] at hq
  cases hq

theorem rowFieldTexts_length (g : GridState) (row : Nat) :
    (rowFieldTexts g row).length = 8 := by
  unfold rowFieldTexts
  split <;> rfl

theorem mem_range'_exists {r0 k m : Nat} (h : m ∈ List.range' r0 k) :
    ∃ i, i < k ∧ m = r0 + i := by
  rw [List.mem_range'] at h
  obtain ⟨i, hi, hm⟩ := h
  exact ⟨i, hi, by omega⟩

/-- Under the cleanliness conditions, parsing the exported text recovers
exactly the visible texts of the selected rows. -/
theorem parseClipboard_copy (g : GridState) (r0 k : Nat) (hk : 1 ≤ k)
    (hclean : ∀ i < k, ∀ s ∈ rowFieldTexts g (r0 + i), ∀ c ∈ s.data, needsQuote c = false)
    (hnonws : ∀ i < k, ∃ s ∈ rowFieldTexts g (r0 + i), pyStripTruthy s.data = true) :
    parseClipboard (copy_selection_to_clipboard g (List.range' r0 k)) =
      (List.range' r0 k).map (fun row => rowFieldTexts g row) := by
  have hclean2 : ∀ row ∈ List.range' r0 k, ∀ s ∈ rowFieldTexts g row, ∀ c ∈ s.data,
      needsQuote c = false := by
    intro row hrow
    obtain ⟨i, hi, rfl⟩ := mem_range'_exists hrow
    exact hclean i hi
  have hnonws2 : ∀ row ∈ List.range' r0 k, ∃ s ∈ rowFieldTexts g row,
      pyStripTruthy s.data = true := by
    intro row hrow
    obtain ⟨i, hi, rfl⟩ := mem_range'_exists hrow
    exact hnonws i hi
  have hselne : ¬ (List.range' r0 k).isEmpty = true := by
    rw [List.isEmpty_iff]
    intro hc
    have := congrArg List.length hc
    simp at this
    omega
  have hcopy : copy_selection_to_clipboard g (List.range' r0 k) =
      String.mk (((List.range' r0 k).map
        (fun row => csvLine (rowFieldTexts g row))).flatten) := by
    unfold copy_selection_to_clipboard
    rw [if_neg hselne]
    rw [List.dedup_eq_self.mpr (List.nodup_range' r0 k 1 one_pos)]
    rw [sortAscNat_sorted _ ((List.pairwise_lt_range' r0 k 1 one_pos).imp
      (fun h => Nat.le_of_lt h))]
  -- each csv line degenerates to the plain joined fields
  have hline : ∀ row ∈ List.range' r0 k, csvLine (rowFieldTexts g row) =
      joinSep '\t' ((rowFieldTexts g row).map String.data) ++ ['\n'] := by
    intro row hrow
    unfold csvLine
    congr 1
    congr 1
    apply List.map_congr_left
    intro s hs
    exact csvField_id s.data (fun c hc => hclean2 row hrow s hs c hc)
  have hmapline : (List.range' r0 k).map (fun row => csvLine (rowFieldTexts g row)) =
      ((List.range' r0 k).map
        (fun row => joinSep '\t' ((rowFieldTexts g row).map String.data))).map
        (fun b => b ++ ['\n']) := by
    rw [List.map_map]
    exact List.map_congr_left hline
  -- no newline occurs in a joined body
  have hbody_nl : ∀ b ∈ (List.range' r0 k).map
      (fun row => joinSep '\t' ((rowFieldTexts g row).map String.data)), '\n' ∉ b := by
    intro b hb
    obtain ⟨row, hrow, rfl⟩ := List.mem_map.mp hb
    intro hmem
    rcases mem_joinSep _ hmem with hc | ⟨l, hl, hcl⟩
    · cases hc
    · obtain ⟨s, hs, rfl⟩ := List.mem_map.mp hl
      have := hclean2 row hrow s hs '\n' hcl
      cases this
  -- every body survives the strip filter
  have hbody_ws : ∀ b ∈ (List.range' r0 k).map
      (fun row => joinSep '\t' ((rowFieldTexts g row).map String.data)),
      pyStripTruthy b = true := by
    intro b hb
    obtain ⟨row, hrow, rfl⟩ := List.mem_map.mp hb
    obtain ⟨s, hs, hws⟩ := hnonws2 row hrow
    obtain ⟨c, hc, hcn⟩ := List.any_eq_true.mp hws
    exact List.any_eq_true.mpr
      ⟨c, joinSep_mem_of _ s.data (List.mem_map_of_mem String.data hs) hc, hcn⟩
  -- splitting a body on tabs recovers the fields
  have hbody_split : ∀ row ∈ List.range' r0 k,
      pySplitChar '\t' (joinSep '\t' ((rowFieldTexts g row).map String.data)) =
        (rowFieldTexts g row).map String.data := by
    intro row hrow
    apply pySplit_joinSep
    · intro hc
      have := congrArg List.length hc
      rw [List.length_map, rowFieldTexts_length] at this
      cases this
    · intro l hl
      obtain ⟨s, hs, rfl⟩ := List.mem_map.mp hl
      intro hmem
      have := hclean2 row hrow s hs '\t' hmem
      cases this
  rw [hcopy]
  unfold parseClipboard
  show ((pySplitChar '\n' ((List.range' r0 k).map
      (fun row => csvLine (rowFieldTexts g row))).flatten).filter pyStripTruthy).map
      (fun line => (pySplitChar '\t' line).map String.mk) = _
  rw [hmapline, pySplit_newline_flatten _ hbody_nl]
  rw [List.filter_append, List.filter_eq_self.mpr hbody_ws]
  have hnilfilter : ([([] : List Char)].filter pyStripTruthy) = [] := rfl
  rw [hnilfilter, List.append_nil, List.map_map]
  apply List.map_congr_left
  intro row hrow
  show ((pySplitChar '\t' (joinSep '\t' ((rowFieldTexts g row).map String.data))).map
    String.mk) = rowFieldTexts g row
  rw [hbody_split row hrow, List.map_map]
  have : (String.mk ∘ String.data) = id := by
    funext s
    rfl
  rw [this, List.map_id]

theorem rowFieldTexts_eq_vis {g : GridState} {row : Nat} (h : row < g.rows.length) :
    rowFieldTexts g row = rowVisTexts (rowAt g row) := by
  unfold rowFieldTexts rowAt
  rw [List.get?_eq_get h]
  rfl

theorem range'_get? (s n i : Nat) (h : i < n) : (List.range' s n).get? i = some (s + i) := by
  rw [List.get?_eq_get]
  · simp [List.get_range']
  · simpa using h

theorem writeRowCells_vis (r : Row) (cells : List String) (h : cells.length = 8) :
    rowVisTexts (writeRowCells r 0 cells) = cells := by
  rcases cells with _ | ⟨a, _ | ⟨b, _ | ⟨c, _ | ⟨d, _ | ⟨e, _ | ⟨f, _ | ⟨p, _ | ⟨q, rest⟩⟩⟩⟩⟩⟩⟩⟩ <;>
    simp only [List.length_cons, List.length_nil] at h
  · omega
  · omega
  · omega
  · omega
  · omega
  · omega
  · omega
  · omega
  · have hrest : rest = [] := by
      have : rest.length = 0 := by omega
      exact List.eq_nil_of_length_eq_zero this
    subst hrest
    rfl

theorem pasteWriteStep_len_mono (g : GridState) (idx : Nat) (cells : List String) :
    g.rows.length ≤ (pasteWriteStep g idx cells).rows.length := by
  simp only [pasteWriteStep]
  split <;> split
  · show _ ≤ (List.set _ _ _).length
    rw [List.length_set]
    show _ ≤ (g.rows ++ [emptyRow]).length
    simp only [List.length_append, List.length_cons, List.length_nil]
    omega
  · show _ ≤ (g.rows ++ [emptyRow]).length
    simp only [List.length_append, List.length_cons, List.length_nil]
    omega
  · show _ ≤ (List.set _ _ _).length
    rw [List.length_set]
  · exact Nat.le_refl _

theorem pasteWriteStep_get_ne (g : GridState) (idx : Nat) (cells : List String)
    {r : Nat} (hne : r ≠ idx) (hr : r < g.rows.length) :
    (pasteWriteStep g idx cells).rows.get? r = g.rows.get? r := by
  simp only [pasteWriteStep]
  by_cases hadd : g.rows.length ≤ idx + 1
  · rw [if_pos hadd]
    have hg1 : (add_empty_row g).rows.get? r = g.rows.get? r := by
      show (g.rows ++ [emptyRow]).get? r = _
      exact List.get?_append hr
    split
    · show (List.set _ _ _).get? r = _
      rw [List.get?_set_ne _ _ (Ne.symm hne)]
      exact hg1
    · exact hg1
  · rw [if_neg hadd]
    split
    · show (List.set _ _ _).get? r = _
      rw [List.get?_set_ne _ _ (Ne.symm hne)]
    · rfl

theorem pasteWriteStep_get_eq (g : GridState) (idx : Nat) (cells : List String)
    (h : idx < g.rows.length) :
    (pasteWriteStep g idx cells).rows.get? idx =
      some (writeRowCells (rowAt g idx) 0 cells) := by
  simp only [pasteWriteStep]
  by_cases hadd : g.rows.length ≤ idx + 1
  · rw [if_pos hadd]
    have hg1get : (add_empty_row g).rows.get? idx = g.rows.get? idx := by
      show (g.rows ++ [emptyRow]).get? idx = _
      exact List.get?_append h
    have hg1len : idx < (add_empty_row g).rows.length := by
      show idx < (g.rows ++ [emptyRow]).length
      simp only [List.length_append, List.length_cons, List.length_nil]
      omega
    rw [if_pos hg1len]
    show (List.set _ _ _).get? idx = _
    rw [List.get?_set_eq_of_lt _ hg1len]
    have hrowAt : rowAt (add_empty_row g) idx = rowAt g idx := by
      unfold rowAt
      rw [hg1get]
    rw [hrowAt]
  · rw [if_neg hadd, if_pos h]
    show (List.set _ _ _).get? idx = _
    rw [List.get?_set_eq_of_lt _ h]

theorem pasteWrite_len_mono (data : List (List String)) :
    ∀ (g : GridState) (idx : Nat), g.rows.length ≤ (pasteWrite g idx data).rows.length := by
  induction data with
  | nil => intro g idx; exact Nat.le_refl _
  | cons cells rest ih =>
    intro g idx
    exact Nat.le_trans (pasteWriteStep_len_mono g idx cells) (ih _ (idx + 1))

theorem pasteWrite_get_untouched (data : List (List String)) :
    ∀ (g : GridState) (idx r : Nat), r < g.rows.length →
      (r < idx ∨ idx + data.length ≤ r) →
      (pasteWrite g idx data).rows.get? r = g.rows.get? r := by
  induction data with
  | nil => intro g idx r _ _; rfl
  | cons cells rest ih =>
    intro g idx r hr hd
    simp only [List.length_cons] at hd
    have hne : r ≠ idx := by omega
    show (pasteWrite (pasteWriteStep g idx cells) (idx + 1) rest).rows.get? r = _
    rw [ih _ (idx + 1) r (Nat.lt_of_lt_of_le hr (pasteWriteStep_len_mono g idx cells))
        (by omega)]
    exact pasteWriteStep_get_ne g idx cells hne hr

theorem pasteWrite_visible (data : List (List String)) :
    ∀ (g : GridState) (idx i : Nat) (fi : List String), data.get? i = some fi →
      (∀ f ∈ data, f.length = 8) → idx + data.length ≤ g.rows.length →
      rowFieldTexts (pasteWrite g idx data) (idx + i) = fi := by
  induction data with
  | nil => intro g idx i fi hget _ _; cases hget
  | cons cells rest ih =>
    intro g idx i fi hget hlen8 hrange
    simp only [List.length_cons] at hrange
    have hlt : idx < g.rows.length := by omega
    cases i with
    | zero =>
      have hfi : cells = fi := Option.some.inj hget
      have h1 : (pasteWrite (pasteWriteStep g idx cells) (idx + 1) rest).rows.get? idx =
          (pasteWriteStep g idx cells).rows.get? idx :=
        pasteWrite_get_untouched rest _ (idx + 1) idx
          (Nat.lt_of_lt_of_le hlt (pasteWriteStep_len_mono g idx cells)) (Or.inl (by omega))
      show rowFieldTexts (pasteWrite (pasteWriteStep g idx cells) (idx + 1) rest) idx = fi
      unfold rowFieldTexts
      rw [h1, pasteWriteStep_get_eq g idx cells hlt, ← hfi]
      exact writeRowCells_vis _ _ (hlen8 cells (List.mem_cons_self cells rest))
    | succ i =>
      show rowFieldTexts (pasteWrite (pasteWriteStep g idx cells) (idx + 1) rest)
        (idx + (i + 1)) = fi
      have heq : idx + (i + 1) = (idx + 1) + i := by omega
      rw [heq]
      apply ih _ (idx + 1) i fi hget
        (fun f hf => hlen8 f (List.mem_cons_of_mem cells hf))
      have := pasteWriteStep_len_mono g idx cells
      omega

theorem highlight_new_row_id_of_decorated {g : GridState} {row : Nat}
    (hmem : row ∈ g.new_rows)
    (hc : pyStartsWith "NEW: " (rowAt g row).nameCell.text = true ∨
      (rowAt g row).nameCell.text = "+") :
    highlight_new_row g row = g := by
  simp only [highlight_new_row]
  rw [if_pos hmem]
  split
  · have hcond : (!pyStartsWith "NEW: " (rowAt g row).nameCell.text &&
        (rowAt g row).nameCell.text != "+") = false := by
      rcases hc with h | h
      · simp [h]
      · simp [h]
    rw [if_neg (by rw [hcond]; exact Bool.false_ne_true)]
  · rfl

theorem pasteUpdateStep_rows_eq (start : Nat) (g : GridState) (i : Nat)
    (hc : start + i ∈ g.new_rows →
      pyStartsWith "NEW: " (rowAt g (start + i)).nameCell.text = true ∨
      (rowAt g (start + i)).nameCell.text = "+") :
    (pasteUpdateStep start g i).rows = g.rows := by
  simp only [pasteUpdateStep]
  split
  · by_cases hmem : start + i ∈ g.new_rows
    · rw [if_pos hmem, highlight_new_row_id_of_decorated hmem (hc hmem)]
      split
      · rfl
      · rfl
    · rw [if_neg hmem]
      split
      · rfl
      · rfl
  · rfl

theorem foldl_pasteUpdate_rows_eq (start : Nat) (n : Nat) (g : GridState)
    (hcond : ∀ i < n, start + i ∈ g.new_rows →
      pyStartsWith "NEW: " (rowAt g (start + i)).nameCell.text = true ∨
      (rowAt g (start + i)).nameCell.text = "+") :
    ((List.range n).foldl (pasteUpdateStep start) g).rows = g.rows := by
  induction n with
  | zero => rfl
  | succ n ih =>
    rw [List.range_succ, List.foldl_append]
    show (pasteUpdateStep start ((List.range n).foldl (pasteUpdateStep start) g) n).rows = _
    have hgN := ih (fun i hi => hcond i (Nat.lt_succ_of_lt hi))
    have hreg := (foldl_pasteUpdateStep_registries start (List.range n) g).1
    rw [pasteUpdateStep_rows_eq start _ n ?_]
    · exact hgN
    · intro hmem
      rw [hreg] at hmem
      have hrowAt : rowAt ((List.range n).foldl (pasteUpdateStep start) g) (start + n) =
          rowAt g (start + n) := by
        unfold rowAt
        rw [hgN]
      rw [hrowAt]
      exact hcond n (Nat.lt_succ_self n) hmem

/-- C8 amended: for a CONTIGUOUS selection of in-range rows whose visible
texts contain no tab, newline or double-quote character (carriage returns
are fine: this csv writer emits them raw and the paste splits recover them),
where every selected row has at least one cell with a non-whitespace
character, and where any selected Unsaved-New row shows its usual "NEW: "
decoration (or the sentinel "+") in the name cell, importing the exported
text back at the first selected row reproduces every selected row's eight
visible field values exactly. -/
theorem clipboard_round_trip_restricted (g : GridState) (r0 k : Nat)
    (hk : 1 ≤ k) (hrange : r0 + k ≤ g.rows.length)
    (hclean : ∀ i < k, ∀ s ∈ rowFieldTexts g (r0 + i), ∀ c ∈ s.data, needsQuote c = false)
    (hnonws : ∀ i < k, ∃ s ∈ rowFieldTexts g (r0 + i), pyStripTruthy s.data = true)
    (hnewdec : ∀ i < k, r0 + i ∈ g.new_rows →
      pyStartsWith "NEW: " (rowAt g (r0 + i)).nameCell.text = true ∨
      (rowAt g (r0 + i)).nameCell.text = "+") :
    ∀ i < k, rowFieldTexts
        (paste_from_clipboard g (copy_selection_to_clipboard g (List.range' r0 k)) r0)
        (r0 + i) = rowFieldTexts g (r0 + i) := by
  intro i hi
  have hparse := parseClipboard_copy g r0 k hk hclean hnonws
  have htextne : ¬ copy_selection_to_clipboard g (List.range' r0 k) = "" := by
    intro hc
    rw [hc] at hparse
    have hlen : (parseClipboard "").length = k := by
      rw [hparse]
      simp
    rw [show parseClipboard "" = [] from rfl] at hlen
    simp at hlen
    omega
  have hdatane : ¬ parseClipboard (copy_selection_to_clipboard g (List.range' r0 k)) = [] := by
    rw [hparse]
    intro hc
    have := congrArg List.length hc
    simp at this
    omega
  have hpaste : paste_from_clipboard g (copy_selection_to_clipboard g (List.range' r0 k)) r0 =
      (List.range (parseClipboard
          (copy_selection_to_clipboard g (List.range' r0 k))).length).foldl
        (pasteUpdateStep r0)
        (pasteWrite g r0 (parseClipboard (copy_selection_to_clipboard g (List.range' r0 k)))) := by
    simp [paste_from_clipboard, htextne, hdatane]
  rw [hpaste, hparse]
  have hlenD : ((List.range' r0 k).map (fun row => rowFieldTexts g row)).length = k := by
    simp
  have hvis : ∀ j, j < k → rowFieldTexts
      (pasteWrite g r0 ((List.range' r0 k).map (fun row => rowFieldTexts g row)))
      (r0 + j) = rowFieldTexts g (r0 + j) := by
    intro j hj
    apply pasteWrite_visible
    · rw [List.get?_map, range'_get? r0 k j hj]
      rfl
    · intro f hf
      obtain ⟨row, _, rfl⟩ := List.mem_map.mp hf
      exact rowFieldTexts_length g row
    · rw [hlenD]
      exact hrange
  have hrowseq : ((List.range ((List.range' r0 k).map
        (fun row => rowFieldTexts g row)).length).foldl (pasteUpdateStep r0)
        (pasteWrite g r0 ((List.range' r0 k).map (fun row => rowFieldTexts g row)))).rows =
      (pasteWrite g r0 ((List.range' r0 k).map (fun row => rowFieldTexts g row))).rows := by
    apply foldl_pasteUpdate_rows_eq
    intro j hj hmem
    rw [hlenD] at hj
    have hreg := (pasteWrite_registries ((List.range' r0 k).map
      (fun row => rowFieldTexts g row)) g r0).1
    rw [hreg] at hmem
    have hljg : r0 + j < g.rows.length := by omega
    have hlw : r0 + j < (pasteWrite g r0 ((List.range' r0 k).map
        (fun row => rowFieldTexts g row))).rows.length :=
      Nat.lt_of_lt_of_le hljg (pasteWrite_len_mono _ g r0)
    have hv := hvis j hj
    rw [rowFieldTexts_eq_vis hlw, rowFieldTexts_eq_vis hljg] at hv
    unfold rowVisTexts at hv
    injection hv with h1 _
    rw [h1]
    exact hnewdec j hj hmem
  have hcongr : ∀ (g1 g2 : GridState), g1.rows = g2.rows →
      rowFieldTexts g1 (r0 + i) = rowFieldTexts g2 (r0 + i) := by
    intro g1 g2 h
    unfold rowFieldTexts
    rw [h]
  rw [hcongr _ _ hrowseq]
  exact hvis i hi

/-- A clean data row for the round-trip witness. -/
def rowClean : Row :=
  { idCell := { text := "1", data := .txn tRent },
    nameCell := { text := "Rent", data := .nodata },
    descCell := { text := "d", data := .nodata },
    accountCell := { text := "Checking", data := .ref 1 },
    typeCell := { text := "Expense", data := .nodata },
    valueCell := { text := "5.0", data := .nodata },
    categoryCell := { text := "", data := .nodata },
    subCategoryCell := { text := "", data := .nodata },
    dateCell := { text := "2024-01-01", data := .nodata } }

def gClean : GridState := { emptyGrid with rows := [rowClean, emptyRow] }

/-- Witness for C8 on the concrete clean grid: pasting the export of row 0
back at row 0 reproduces its visible field values. -/
theorem clipboard_round_trip_witness :
    rowFieldTexts
        (paste_from_clipboard gClean (copy_selection_to_clipboard gClean (List.range' 0 1)) 0)
        (0 + 0) = rowFieldTexts gClean (0 + 0) :=
  clipboard_round_trip_restricted gClean 0 1 (by decide) (by decide)
    (by decide) (by decide) (by decide) 0 (by decide)

end OGM
